import Mathlib

/-!
Shallow embedding of the reconciliation core of the
kubernetes-cloud-provider-alibaba-cloud repository, covering:

* the route controller (`containsRoute`, `conflictWithNodes`,
  `syncTableRoutes`, `createRouteForInstance`, `getRouteTables`,
  `batchAddRoutes`, `batchDeleteRoutes`), and
* the load-balancer model appliers (`applyVGroups`, `applyListeners`,
  `cleanup`, `Apply`) for the NLB (nlbv2) and CLB (clbv1) families.

Go strings are modelled as `List Char` (`GoStr`), Go byte slices as
`List Nat` with each entry below 256, fallible calls as `Except`/`Option`
values, and cloud collaborators as explicit oracle parameters.
-/

deriving instance DecidableEq for Except

/-- Go strings, modelled as lists of characters so that all string
operations reduce inside the kernel. -/
abbrev GoStr := List Char

/-- Convert a Lean string literal to the `GoStr` embedding. -/
def gs (s : String) : GoStr := s.data

namespace route

/-! ### Byte-level IPv4 model (mirrors Go `net.IP` / `net.IPMask` as byte slices) -/

/-- A parsed CIDR network, mirroring Go `net.IPNet`: a 4-byte network
address (already masked, as `net.ParseCIDR` does) and a 4-byte mask. -/
structure IPNet where
  ip : List Nat
  mask : List Nat
deriving DecidableEq

/-- Byte `i` of the IPv4 mask with `ones` leading one bits, mirroring
Go `net.CIDRMask` (which fills whole 0xff bytes and then one partial byte). -/
def cidrMaskByte (ones i : Nat) : Nat :=
  if 8 * (i + 1) ≤ ones then 255
  else if ones ≤ 8 * i then 0
  else 256 - 2 ^ (8 - (ones - 8 * i))

/-- Go `net.CIDRMask(ones, 32)` as a 4-byte list. -/
def cidrMask (ones : Nat) : List Nat :=
  [cidrMaskByte ones 0, cidrMaskByte ones 1, cidrMaskByte ones 2, cidrMaskByte ones 3]

/-- Go `(*net.IPNet).Contains` for 4-byte addresses: mask the candidate
byte-wise and compare with the (pre-masked) network address. -/
def ipnetContains (n : IPNet) (x : List Nat) : Bool :=
  List.zipWith (fun xi mi => xi &&& mi) x n.mask == n.ip

/-! ### Decimal parsing and rendering of dotted-quad CIDR strings -/

/-- Is `c` an ASCII decimal digit? -/
def isDigitChar (c : Char) : Bool := '0' ≤ c ∧ c ≤ '9'

/-- Numeric value of an ASCII digit. -/
def digitVal (c : Char) : Nat := c.toNat - '0'.toNat

/-- Parse a decimal byte field of an IPv4 address, as Go's `dtoi`-based
v4 parser does: digits only, value at most 255, and (as in current Go)
no leading zero. -/
def parseDecByte (s : GoStr) : Option Nat :=
  if s = [] then none
  else if ¬ s.all isDigitChar then none
  else if s.length > 1 ∧ s.headI = '0' then none
  else
    let v := s.foldl (fun acc c => acc * 10 + digitVal c) 0
    if v ≤ 255 then some v else none

/-- Parse the prefix-length field after `/`, as Go's `dtoi` does for
`ParseCIDR`: decimal digits, value at most 32 for IPv4. -/
def parseMaskLen (s : GoStr) : Option Nat :=
  if s = [] then none
  else if ¬ s.all isDigitChar then none
  else
    let v := s.foldl (fun acc c => acc * 10 + digitVal c) 0
    if v ≤ 32 then some v else none

/-- Split a character list at every occurrence of `sep`, mirroring
Go `strings.Split` with a one-character separator. -/
def goSplit : GoStr → Char → List GoStr
  | [], _ => [[]]
  | c :: t, sep =>
    match goSplit t sep with
    | h :: rest => if c = sep then [] :: h :: rest else (c :: h) :: rest
    | [] => if c = sep then [[], []] else [[c]]

/-- Mask a 4-byte address byte-wise, mirroring Go `IP.Mask`. -/
def maskIP (ip mask : List Nat) : List Nat :=
  List.zipWith (fun b m => b &&& m) ip mask

/-- Go `net.ParseCIDR` restricted to IPv4: split at the first `/`,
parse a dotted quad and a prefix length, and return the network with
the address masked.  Go also returns the unmasked address, which no
caller in this repository uses, so it is omitted here. -/
def parseCIDR (s : GoStr) : Option IPNet :=
  match goSplit s '/' with
  | [addr, maskStr] =>
    match goSplit addr '.' with
    | [a, b, c, d] =>
      match parseDecByte a, parseDecByte b, parseDecByte c, parseDecByte d,
          parseMaskLen maskStr with
      | some va, some vb, some vc, some vd, some ones =>
        let m := cidrMask ones
        some { ip := maskIP [va, vb, vc, vd] m, mask := m }
      | _, _, _, _, _ => none
    | _ => none
  | _ => none

/-- Number of leading one bits in one canonical mask byte
(Go `simpleMaskLength`, per byte). -/
def byteOnes (b : Nat) : Nat :=
  if b = 255 then 8 else if b = 254 then 7 else if b = 252 then 6
  else if b = 248 then 5 else if b = 240 then 4 else if b = 224 then 3
  else if b = 192 then 2 else if b = 128 then 1 else 0

/-- Prefix length of a mask.  Faithful to Go `net.IPMask.Size` for the
canonical masks produced by `cidrMask`, the only masks that arise here
(Go renders non-canonical masks in a hexadecimal form instead). -/
def maskOnes (m : List Nat) : Nat := (m.map byteOnes).foldl (· + ·) 0

/-- Decimal rendering of a byte value, mirroring Go `itoa` output for
values below 1000. -/
def natDigits (n : Nat) : GoStr :=
  if n < 10 then [Char.ofNat (48 + n)]
  else if n < 100 then [Char.ofNat (48 + n / 10), Char.ofNat (48 + n % 10)]
  else [Char.ofNat (48 + n / 100), Char.ofNat (48 + n / 10 % 10), Char.ofNat (48 + n % 10)]

/-- Dotted-quad rendering of a 4-byte address, mirroring Go `IP.String`. -/
def ipDotted (ip : List Nat) : GoStr :=
  match ip with
  | [a, b, c, d] => natDigits a ++ gs "." ++ natDigits b ++ gs "." ++ natDigits c ++ gs "." ++ natDigits d
  | _ => gs "?"

/-- Go `(*net.IPNet).String()`: dotted address, `/`, prefix length. -/
def netString (n : IPNet) : GoStr := ipDotted n.ip ++ gs "/" ++ natDigits (maskOnes n.mask)

/-! ### `containsRoute` (src/unnamed/part_000, lines 203-225) -/

/-- The last address of a network:
`lastIP[i] = cidr.IP[i] | ^cidr.Mask[i]` (byte complement as `255 ^ m`). -/
def lastIPOf (cidr : IPNet) : List Nat :=
  List.zipWith (fun bi mi => bi ||| (255 ^^^ mi)) cidr.ip cidr.mask

/-- `containsRoute(outside, insideRoute)` from the route controller.
Returns `(containsEqual, realContains)`; an unparsable inside CIDR is
an error (`Except.error` with the formatted message). -/
def containsRoute (outside : Option IPNet) (insideRoute : GoStr) :
    Except GoStr (Bool × Bool) :=
  match outside with
  | none =>
    -- outside is nil, contains all route
    .ok (true, true)
  | some out =>
    match parseCIDR insideRoute with
    | none => .error (gs "ignoring route " ++ insideRoute ++ gs ", unparsable CIDR")
    | some cidr =>
      if netString out == insideRoute then .ok (true, false)
      else
        if !(ipnetContains out cidr.ip) || !(ipnetContains out (lastIPOf cidr)) then .ok (false, false)
        else .ok (true, true)

/-- `realContains` as computed by `containsRoute` against a non-nil
outside network: the inside CIDR parses, is not the canonical rendering
of the outside network, and its first and last addresses both lie in
the outside network.  (`false` on a `containsRoute` error.) -/
def cidrRealContains (outside : IPNet) (inside : GoStr) : Bool :=
  match containsRoute (some outside) inside with
  | .ok (_, c) => c
  | .error _ => false

/-- `containsEqual && !realContains` as computed by `containsRoute`:
the inside CIDR parses and is exactly the canonical rendering of the
outside network.  (`false` on a `containsRoute` error.) -/
def cidrOnlyEqual (outside : IPNet) (inside : GoStr) : Bool :=
  match containsRoute (some outside) inside with
  | .ok (e, c) => e && !c
  | .error _ => false

/-! ### Nodes and routes (`model.Route`, `v1.Node` as used by this controller) -/

/-- The fields of `model.Route` read by this controller. -/
structure Route where
  name : GoStr
  destinationCIDR : GoStr
  providerId : GoStr
deriving DecidableEq

/-- The fields of a cluster `v1.Node` observed by this controller.
`hasExcludeLabel` models `helper.HasExcludeLabel(node)`,
`readyCondUnknown` models a `NodeReady` condition found with status
`Unknown`, `hasDeletionTimestamp` models `node.DeletionTimestamp != nil`,
and `ipv4Route` holds the outcome of `getIPv4RouteForNode` (the parsed
pod CIDR and its string form, or an error). -/
structure Node where
  name : GoStr
  providerId : GoStr
  hasExcludeLabel : Bool
  readyCondUnknown : Bool
  hasDeletionTimestamp : Bool
  ipv4Route : Except Unit (Option IPNet × GoStr)
deriving DecidableEq

/-- Modelled from the spec: `getIPv4RouteForNode` is not under `src/`
(only its callers are); per the spec it extracts the node's IPv4 pod
CIDR, failing or yielding nothing when the node has no usable CIDR.
The outcome is carried on the node model. -/
def getIPv4RouteForNode (n : Node) : Except Unit (Option IPNet × GoStr) := n.ipv4Route

/-- `needSyncRoute` (src/unnamed/part_000, lines 227-245). -/
def needSyncRoute (n : Node) : Bool :=
  if n.hasExcludeLabel then false
  else if n.readyCondUnknown then false
  else if n.hasDeletionTimestamp then false
  else true

/-! ### `conflictWithNodes` (src/unnamed/part_000, lines 152-174) -/

/-- The per-node body of the `conflictWithNodes` loop: skip a node
whose pod CIDR is unavailable or whose containment check errors; report
a conflict when `contains || (equal && route.ProviderId != node.Spec.ProviderID)`
where `(equal, contains)` names the two results of `containsRoute`. -/
def nodeConflictsWith (route : Route) (node : Node) : Bool :=
  match getIPv4RouteForNode node with
  | .error _ => false
  | .ok (none, _) => false
  | .ok (some ipv4Cidr, _) =>
    match containsRoute (some ipv4Cidr) route.destinationCIDR with
    | .error _ => false
    | .ok (equal, contains) =>
      contains || (equal && route.providerId ≠ node.providerId)

/-- `conflictWithNodes(route, nodes)`: scan the node list, reporting
the first conflict found. -/
def conflictWithNodes (route : Route) (nodes : List Node) : Bool :=
  nodes.any (nodeConflictsWith route)

/-! ### `syncTableRoutes` (src/unnamed/part_000, lines 93-150) -/

/-- An operation issued by `syncTableRoutes` against a route table. -/
inductive RouteOp
  | deleteRoute (table providerId cidr : GoStr)
  | addRoute (nodeName cidr : GoStr)
deriving DecidableEq

/-- Is this a route deletion? -/
def routeOpIsDelete : RouteOp → Bool
  | .deleteRoute _ _ _ => true
  | .addRoute _ _ => false

/-- The cluster-CIDR resolution at the top of `syncTableRoutes`: an
empty `ClusterCIDR` config leaves the boundary nil (everything in
scope); an unparsable one is a fatal error. -/
def clusterCIDROf (cfg : GoStr) : Except GoStr (Option IPNet) :=
  if cfg ≠ ([] : GoStr) then
    match parseCIDR cfg with
    | some net => .ok (some net)
    | none => .error (gs "error parse cluster cidr " ++ cfg)
  else .ok none

/-- One iteration of the first `syncTableRoutes` loop: skip routes
whose containment check errors or that are outside the cluster CIDR,
and delete the in-scope conflicting ones.  The first `containsRoute`
component is the one the caller binds as `contains`. -/
def syncDelOp (clusterCIDR : Option IPNet) (table : GoStr) (nodes : List Node)
    (route : Route) : Option RouteOp :=
  match containsRoute clusterCIDR route.destinationCIDR with
  | .error _ => none
  | .ok (contains, _) =>
    if !contains then none
    else if conflictWithNodes route nodes then
      some (RouteOp.deleteRoute table route.providerId route.destinationCIDR)
    else none

/-- One iteration of the second `syncTableRoutes` loop: nodes that need
a route and have a provider id and a pod CIDR get a route created. -/
def syncAddOp (node : Node) : Option RouteOp :=
  if !needSyncRoute node then none
  else if node.providerId = ([] : GoStr) then none
  else
    match getIPv4RouteForNode node with
    | .error _ => none
    | .ok (_, ipv4RouteCidr) =>
      if ipv4RouteCidr = ([] : GoStr) then none
      else some (RouteOp.addRoute node.name ipv4RouteCidr)

/-- `syncTableRoutes(ctx, table, nodes)` as the sequence of route
operations it issues.  `listResult` stands for `r.cloud.ListRoute`;
route deletions that fail and `updateNetworkingCondition` calls only
log, so the emitted operation list is the plan of attempted mutations.
`addRouteForNode` is not under `src/`; per the spec it creates the
route for the node, modelled here as the emitted `addRoute` operation. -/
def syncTableRoutes (clusterCIDRCfg table : GoStr)
    (listResult : Except GoStr (List Route)) (nodes : List Node) :
    Except GoStr (List RouteOp) :=
  match listResult with
  | .error e => .error (gs "error listing routes: " ++ e)
  | .ok routes =>
    match clusterCIDROf clusterCIDRCfg with
    | .error e => .error e
    | .ok clusterCIDR =>
      .ok (routes.filterMap (syncDelOp clusterCIDR table nodes)
        ++ nodes.filterMap syncAddOp)

/-! ### `createRouteForInstance` (src/unnamed/part_000, lines 21-64) -/

/-- Contiguous-substring test, mirroring Go `strings.Contains`. -/
def goStrContains : GoStr → GoStr → Bool
  | _, [] => true
  | [], _ :: _ => false
  | h :: t, n => n.isPrefixOf (h :: t) || goStrContains t n

/-- `Steps` of the package-level `createBackoff` (`wait.Backoff{Duration: 5s,
Steps: 3, Factor: 2, Jitter: 1}`): at most 3 attempts.  The durations,
factor and jitter only control sleep timing and are not modelled. -/
def createBackoffSteps : Nat := 3

/-- Responses of the `prvd.IVPC` collaborator during one
`createRouteForInstance` call: the outcome of the `i`-th `CreateRoute`
attempt, and of the `FindRoute` lookup performed after the `i`-th
attempt (Go checks `findErr == nil && route != nil`, so a lookup error
and an absent route are collapsed to `none`). -/
structure CreateOracle where
  createResult : Nat → Except GoStr Route
  findResult : Nat → Option Route

/-- The create-error substring that marks a duplicate-CIDR conflict. -/
def dupCidrErr : GoStr := gs "InvalidCIDRBlock.Duplicate"

/-- The wrapped error message returned when the backoff fails. -/
def createRouteErrMsg (providerID innerErr : GoStr) : GoStr :=
  gs "error create route for node " ++ providerID ++ gs ", err: " ++ innerErr

/-- The `wait.ExponentialBackoff` loop body of `createRouteForInstance`:
`fuel` counts the remaining steps, `attempt` the index of the next
`CreateRoute` call, `calls` the `CreateRoute` calls made so far, and
`lastErr` the latest `innerErr`.  Returns the function result together
with the total number of `CreateRoute` calls. -/
def createRouteLoop (o : CreateOracle) (providerID : GoStr) :
    Nat → Nat → Nat → GoStr → (Except GoStr Route) × Nat
  | 0, _, calls, lastErr =>
    -- steps exhausted: ExponentialBackoff returns ErrWaitTimeout and the
    -- wrapper formats the last innerErr
    (.error (createRouteErrMsg providerID lastErr), calls)
  | fuel + 1, attempt, calls, _ =>
    match o.createResult attempt with
    | .ok r => (.ok r, calls + 1)
    | .error innerErr =>
      if goStrContains innerErr dupCidrErr then
        match o.findResult attempt with
        | some r => (.ok r, calls + 1)
        | none =>
          -- fail fast, wait next time reconcile
          (.error (createRouteErrMsg providerID innerErr), calls + 1)
      else createRouteLoop o providerID fuel (attempt + 1) (calls + 1) innerErr
  termination_by fuel => fuel

/-- `createRouteForInstance(ctx, table, providerID, cidr, providerIns)`,
with the cloud collaborator as an oracle; second component counts the
`CreateRoute` calls performed. -/
def createRouteForInstance (o : CreateOracle) (providerID : GoStr) :
    (Except GoStr Route) × Nat :=
  createRouteLoop o providerID createBackoffSteps 0 0 []

/-! ### `getRouteTables` (src/unnamed/part_000, lines 72-91) -/

/-- `getRouteTables(ctx, providerIns)`: a configured
`RouteTableIDS` string is split on commas and returned as-is; otherwise
the cloud listing must yield exactly one table. -/
def getRouteTables (routeTableIDsCfg : GoStr)
    (vpcIdResult : Except GoStr GoStr)
    (listResult : GoStr → Except GoStr (List GoStr)) :
    Except GoStr (List GoStr) :=
  match vpcIdResult with
  | .error e => .error (gs "get vpc id from metadata error: " ++ e)
  | .ok vpcId =>
    if routeTableIDsCfg ≠ ([] : GoStr) then .ok (goSplit routeTableIDsCfg ',')
    else
      match listResult vpcId with
      | .error _ => .error (gs "can not found route table")
      | .ok tables =>
        if tables.length > 1 then .error (gs "multiple route tables found")
        else if tables.length = 0 then .error (gs "no route tables found")
        else .ok tables

/-! ### `batchAddRoutes` / `batchDeleteRoutes` (src/unnamed/part_000, lines 261-346) -/

/-- One entry of `prvd.RouteUpdateStatus` as consumed by the batch
processors: the failed flag, the provider failure code, and the names
used on the success/requeue paths. -/
structure RouteUpdateStatus where
  failed : Bool
  failedCode : GoStr
  failedMessage : GoStr
  routeName : GoStr
  nodeName : GoStr
deriving DecidableEq

/-- What happened to one batch entry after reclassification:
`successFull` — success path with node condition updated, cache set and
rate limiter forgotten; `successCondUpdateFailed` — success path but the
node-condition update errored, so cache/forget were skipped;
`requeued` — still failed, the node is requeued individually. -/
inductive BatchOutcome
  | successFull
  | successCondUpdateFailed
  | requeued
deriving DecidableEq

/-- Per-entry processing of `batchAddRoutes`: reclassify the two
ignorable create codes as success, then follow the success or requeue
path.  `condOk node` models whether `updateNetworkingCondition`
succeeds for that node. -/
def processAddStatus (condOk : GoStr → Bool) (s : RouteUpdateStatus) : BatchOutcome :=
  let s := if s.failedCode == gs "VPC_ROUTE_ENTRY_CIDR_BLOCK_DUPLICATE" then
    { s with failed := false } else s
  let s := if s.failedCode == gs "VPC_ROUTE_ENTRY_STATUS_ERROR" then
    { s with failed := false } else s
  if !s.failed then
    if condOk s.nodeName then .successFull else .successCondUpdateFailed
  else .requeued

/-- Per-entry processing of `batchDeleteRoutes`: reclassify the
not-found delete code as success (the delete success path does not
update node conditions, so no `condOk` oracle is needed). -/
def processDeleteStatus (s : RouteUpdateStatus) : BatchOutcome :=
  let s := if s.failedCode == gs "VPC_ROUTER_ENTRY_NOT_EXIST" then
    { s with failed := false } else s
  if !s.failed then .successFull
  else .requeued

/-- `batchAddRoutes(ctx, reconcileID, table, routes)`: empty input is a
no-op; a failure of the locked batch call itself aborts; otherwise every
per-entry status is processed and the call returns `nil`. -/
def batchAddRoutes (condOk : GoStr → Bool) (routes : List Route)
    (callResult : Except GoStr (List RouteUpdateStatus)) :
    Except GoStr (List BatchOutcome) :=
  if routes.length = 0 then .ok []
  else
    match callResult with
    | .error e => .error e
    | .ok statuses => .ok (statuses.map (processAddStatus condOk))

/-- `batchDeleteRoutes(ctx, reconcileID, table, routes)`. -/
def batchDeleteRoutes (routes : List Route)
    (callResult : Except GoStr (List RouteUpdateStatus)) :
    Except GoStr (List BatchOutcome) :=
  if routes.length = 0 then .ok []
  else
    match callResult with
    | .error e => .error e
    | .ok statuses => .ok (statuses.map processDeleteStatus)

end route

namespace nlbv2

/-! ### NLB model (`pkg/model/nlb` as used by the model applier) -/

/-- The fields of `nlbmodel.ServerGroupServer` used by cleanup. -/
structure ServerGroupServer where
  serverId : String
  isUserManaged : Bool
deriving DecidableEq

/-- The fields of `nlbmodel.ServerGroup` used by the model applier.
`namedKey` models the `*nlbmodel.SGNamedKey` pointer together with the
outcome of `NamedKey.IsManagedByService(service, CLUSTER_ID)` for the
service being reconciled: `none` for a nil named key, `some b` for a
non-nil key whose ownership check yields `b`. -/
structure ServerGroup where
  serverGroupId : String
  serverGroupName : String
  serverGroupType : String
  isUserManaged : Bool
  vpcId : String
  servers : List ServerGroupServer
  namedKey : Option Bool
deriving DecidableEq

/-- `serverGroupActionType` of the planned server-group operations. -/
inductive ServerGroupActionKind
  | update
  | createAndAddBackendServers
deriving DecidableEq

/-- `serverGroupAction` (Action, Local, Remote). -/
structure ServerGroupAction where
  action : ServerGroupActionKind
  localSG : ServerGroup
  remoteSG : ServerGroup
deriving DecidableEq

/-- The remote scan of `applyVGroups`: match by server-group id when the
local id is set, else by name (first remote hit wins, as the Go loop
breaks on the first match). -/
def findRemoteServerGroup (sg : ServerGroup) (remotes : List ServerGroup) :
    Option ServerGroup :=
  remotes.find? fun rv =>
    if sg.serverGroupId ≠ "" then sg.serverGroupId == rv.serverGroupId
    else sg.serverGroupName == rv.serverGroupName

/-- Loop state of `applyVGroups`: accumulated actions, the remote
collection (grown in place by creates), the dedup key set
(`updatedServerGroups`), and the local groups processed so far (the Go
loop mutates `local.ServerGroups[i]` in place). -/
structure VGroupPlanState where
  actions : List ServerGroupAction
  remote : List ServerGroup
  updated : List String
  localAcc : List ServerGroup
deriving DecidableEq

/-- One iteration plus the remaining iterations of the `applyVGroups`
loop (src/pkg/controller/service/nlbv2/model_applier.go, lines 192-268).
`vpcId` is `remote.LoadBalancerAttribute.VpcId`. -/
def applyVGroupsLoop (vpcId : String) :
    List ServerGroup → VGroupPlanState → Except String VGroupPlanState
  | [], st => .ok st
  | sg :: rest, st =>
    let sgKey := if sg.serverGroupId ≠ "" then "id-" ++ sg.serverGroupId
      else "name-" ++ sg.serverGroupName
    let scan := findRemoteServerGroup sg st.remote
    -- on a name match the remote id is written back into the local group
    let sg := match scan with
      | some rv => if sg.serverGroupId = "" then { sg with serverGroupId := rv.serverGroupId } else sg
      | none => sg
    if st.updated.contains sgKey then
      applyVGroupsLoop vpcId rest { st with localAcc := st.localAcc ++ [sg] }
    else
      match scan with
      | some old =>
        if sg.serverGroupType ≠ "" ∧ sg.serverGroupType ≠ old.serverGroupType then
          if sg.isUserManaged then
            .error ("ServerGroupType of user managed server group should be ["
              ++ sg.serverGroupType ++ "], but [" ++ old.serverGroupType ++ "]")
          else
            -- ServerGroupType changed, need to recreate server group
            let sg := if vpcId ≠ "" then { sg with vpcId := vpcId } else sg
            applyVGroupsLoop vpcId rest
              { actions := st.actions ++ [⟨.createAndAddBackendServers, sg, sg⟩],
                remote := st.remote ++ [sg],
                updated := st.updated ++ [sgKey],
                localAcc := st.localAcc ++ [sg] }
        else
          applyVGroupsLoop vpcId rest
            { st with
              actions := st.actions ++ [⟨.update, sg, old⟩],
              updated := st.updated ++ [sgKey],
              localAcc := st.localAcc ++ [sg] }
      | none =>
        let sg := if vpcId ≠ "" then { sg with vpcId := vpcId } else sg
        applyVGroupsLoop vpcId rest
          { actions := st.actions ++ [⟨.createAndAddBackendServers, sg, sg⟩],
            remote := st.remote ++ [sg],
            updated := st.updated ++ [sgKey],
            localAcc := st.localAcc ++ [sg] }

/-- `applyVGroups(reqCtx, local, remote)` as a planner: returns the
planned server-group actions, the mutated local groups, and the grown
remote groups (the actions are then handed to
`ParallelUpdateServerGroups`). -/
def applyVGroups (vpcId : String) (localSGs remoteSGs : List ServerGroup) :
    Except String VGroupPlanState :=
  applyVGroupsLoop vpcId localSGs ⟨[], remoteSGs, [], []⟩

/-! ### `applyListeners` (nlbv2, lines 270-342) -/

/-- The fields of `nlbmodel.ListenerAttribute` used by the model
applier.  `namedKey` is as in `ServerGroup`. -/
structure ListenerAttribute where
  listenerProtocol : String
  listenerPort : Nat
  startPort : Nat
  endPort : Nat
  listenerId : String
  serverGroupId : String
  serverGroupName : String
  namedKey : Option Bool
deriving DecidableEq

/-- `listenerActionType`. -/
inductive ListenerActionKind
  | create
  | update
  | delete
deriving DecidableEq

/-- `listenerAction` (Action, Local, Remote, LBId); absent models are
`none` (Go zero values). -/
structure ListenerAction where
  action : ListenerActionKind
  localLis : Option ListenerAttribute
  remoteLis : Option ListenerAttribute
  lbId : String
deriving DecidableEq

/-- `isListenerPortMatch` (lines 430-435). -/
def isListenerPortMatch (l r : ListenerAttribute) : Bool :=
  if l.listenerPort ≠ 0 then l.listenerPort == r.listenerPort
  else l.startPort == r.startPort && l.endPort == r.endPort

/-- The match used to pair local and remote listeners:
`isListenerPortMatch(l, r) && r.ListenerProtocol == l.ListenerProtocol`. -/
def listenerMatch (l r : ListenerAttribute) : Bool :=
  isListenerPortMatch l r && r.listenerProtocol == l.listenerProtocol

/-- `findServerGroup(sgs, lis)` (lines 419-428): resolve the listener's
server-group id by name. -/
def findServerGroup (sgs : List ServerGroup) (lis : ListenerAttribute) :
    Except String ListenerAttribute :=
  match sgs.find? (fun sg => sg.serverGroupName == lis.serverGroupName) with
  | some sg => .ok { lis with serverGroupId := sg.serverGroupId }
  | none => .error ("can not find server group by name " ++ lis.serverGroupName)

/-- The first loop of `applyListeners`: listeners with an unresolved
server-group reference are resolved by name, failure is a hard error. -/
def resolveListeners (sgs : List ServerGroup) :
    List ListenerAttribute → Except String (List ListenerAttribute)
  | [] => .ok []
  | l :: rest =>
    match (if l.serverGroupId ≠ "" then .ok l else findServerGroup sgs l : Except String ListenerAttribute) with
    | .error e => .error ("find servergroup error: " ++ e)
    | .ok l =>
      match resolveListeners sgs rest with
      | .error e => .error e
      | .ok rest => .ok (l :: rest)

/-- One step of the delete loop: scan the local listeners for matches of
the remote listener `r`, writing `r.ListenerId` back into every matching
local listener, and report whether any matched. -/
def markMatched (r : ListenerAttribute) (locals : List ListenerAttribute) :
    List ListenerAttribute × Bool :=
  (locals.map (fun l => if listenerMatch l r then { l with listenerId := r.listenerId } else l),
   locals.any (fun l => listenerMatch l r))

/-- The delete loop of `applyListeners` (lines 290-314): for every
remote listener with no local match, plan a delete unless the load
balancer is user-managed and the listener is not owned by this service. -/
def listenerDeleteLoop (lbUserManaged : Bool) :
    List ListenerAttribute → List ListenerAttribute × List ListenerAction →
    List ListenerAttribute × List ListenerAction
  | [], acc => acc
  | r :: rest, (locals, acts) =>
    let (locals, found) := markMatched r locals
    if found then listenerDeleteLoop lbUserManaged rest (locals, acts)
    else if lbUserManaged ∧ (r.namedKey = none ∨ r.namedKey = some false) then
      -- listener is managed by user, skip delete
      listenerDeleteLoop lbUserManaged rest (locals, acts)
    else
      listenerDeleteLoop lbUserManaged rest
        (locals, acts ++ [⟨.delete, none, some r, ""⟩])

/-- The update/create loop of `applyListeners` (lines 316-338): a local
listener is updated against every remote listener sharing its id, and
created when none does. -/
def listenerUpdateCreateLoop (lbId : String) (remotes : List ListenerAttribute) :
    List ListenerAttribute → List ListenerAction
  | [] => []
  | l :: rest =>
    let hits := remotes.filter (fun r => l.listenerId == r.listenerId)
    (if hits.isEmpty then [⟨.create, some l, none, lbId⟩]
     else hits.map (fun r => ⟨.update, some l, some r, ""⟩))
    ++ listenerUpdateCreateLoop lbId remotes rest

/-- `applyListeners(reqCtx, local, remote)` (nlbv2) as a planner: the
planned listener actions, in the order they are appended before being
handed to `ParallelUpdateListeners`.  `forceOverride` models
`reqCtx.Anno.IsForceOverride()`. -/
def applyListeners (lbUserManaged forceOverride : Bool) (lbId : String)
    (localSGs : List ServerGroup)
    (localListeners remoteListeners : List ListenerAttribute) :
    Except String (List ListenerAction) :=
  if lbUserManaged ∧ ¬ forceOverride then .ok []
  else
    match resolveListeners localSGs localListeners with
    | .error e => .error e
    | .ok locals =>
      let (locals, delActs) := listenerDeleteLoop lbUserManaged remoteListeners (locals, [])
      .ok (delActs ++ listenerUpdateCreateLoop lbId remoteListeners locals)

/-- Proof-support: the ports-and-protocol agreement between a listener
and its server-group-resolved version (resolution writes only
`serverGroupId`). -/
def samePortsProto (l l' : ListenerAttribute) : Prop :=
  l'.listenerProtocol = l.listenerProtocol ∧ l'.listenerPort = l.listenerPort ∧
  l'.startPort = l.startPort ∧ l'.endPort = l.endPort

/-- Proof-support: the cumulative effect of the delete loop's
id write-backs on one local listener, after all remote listeners have
been scanned. -/
def markAll (rs : List ListenerAttribute) (l : ListenerAttribute) : ListenerAttribute :=
  rs.foldl (fun l r => if listenerMatch l r then { l with listenerId := r.listenerId } else l) l

/-! ### `cleanup` (nlbv2, lines 344-392) -/

/-- One operation issued by the nlbv2 cleanup pass. -/
inductive CleanupOp
  | cleanupServerGroupTags (sg : ServerGroup)
  | batchRemoveServers (sg : ServerGroup) (del : List ServerGroupServer)
  | deleteServerGroup (sgId : String)
deriving DecidableEq

/-- One iteration of the nlbv2 cleanup loop: the operations (none or
one) issued for the remote server group `r`. -/
def cleanupOpsFor (preserveOnDelete : Bool) (localSGs : List ServerGroup)
    (r : ServerGroup) : List CleanupOp :=
  if localSGs.any (fun l => l.serverGroupId == r.serverGroupId) then []
  else if preserveOnDelete then [.cleanupServerGroupTags r]
  else if r.namedKey = none ∨ r.isUserManaged ∨ r.namedKey = some false then
    -- user managed server group: keep it, clean non-user-managed backends
    let del := r.servers.filter (fun s => !s.isUserManaged)
    if del.length > 0 then [.batchRemoveServers r del] else []
  else [.deleteServerGroup r.serverGroupId]

/-- `cleanup(reqCtx, local, remote)` (nlbv2) as the list of issued
cleanup operations (a cloud failure aborts the pass early, truncating
the list to a prefix, which cannot add operations). -/
def cleanup (preserveOnDelete : Bool) (localSGs remoteSGs : List ServerGroup) :
    List CleanupOp :=
  remoteSGs.foldl (fun ops r => ops ++ cleanupOpsFor preserveOnDelete localSGs r) []

end nlbv2

/-! ### The phases of `Apply` (shared by the nlbv2 and clbv1 appliers) -/

/-- The externally visible phases of one `Apply` call, in execution
order: remote attribute build, attribute reconciliation, server-group
remote build, server-group reconciliation, listener remote build,
listener reconciliation, cleanup. -/
inductive ApplyPhase
  | buildLBRemote
  | applyLBAttr
  | sgBuild
  | applyVGroupsPhase
  | lisBuild
  | applyListenersPhase
  | cleanupPhase
deriving DecidableEq

/-- Outcomes of the collaborator calls made by one `Apply` invocation.
`attrResult` is `none` when attribute reconciliation succeeds,
`some true` when it fails with an aggregate error (reconciliation
continues), `some false` when it fails fatally.  `lbIdEmpty` is whether
`remote.LoadBalancerAttribute.LoadBalancerId` is empty where `Apply`
tests it, and `needDelete` models `helper.NeedDeleteLoadBalancer`. -/
structure ApplyOracle where
  buildLBOk : Bool
  attrResult : Option Bool
  sgBuildOk : Bool
  vgroupsOk : Bool
  lisBuildOk : Bool
  listenersOk : Bool
  cleanupOk : Bool
  lbIdEmpty : Bool
  needDelete : Bool
deriving DecidableEq

namespace nlbv2

/-- The sequence of phases executed by `Apply` (nlbv2, lines 33-99) for
given `IsServiceHashChanged` / `DryRun` flags and collaborator
outcomes.  A failing phase is still recorded (its call was made); the
trace stops where `Apply` returns. -/
def applyTrace (hashChanged dryRun : Bool) (o : ApplyOracle) : List ApplyPhase :=
  let t0 := [ApplyPhase.buildLBRemote]
  if ¬ o.buildLBOk then t0
  else
    let gate := hashChanged ∨ dryRun
    if gate ∧ o.attrResult = some false then t0 ++ [ApplyPhase.applyLBAttr]
    else
      let t1 := t0 ++ (if gate then [ApplyPhase.applyLBAttr] else [])
      let t2 := t1 ++ [ApplyPhase.sgBuild]
      if ¬ o.sgBuildOk then t2
      else
        let t3 := t2 ++ [ApplyPhase.applyVGroupsPhase]
        if ¬ o.vgroupsOk then t3
        else
          if gate then
            if ¬ o.lbIdEmpty then
              let t4 := t3 ++ [ApplyPhase.lisBuild]
              if ¬ o.lisBuildOk then t4
              else
                let t5 := t4 ++ [ApplyPhase.applyListenersPhase]
                if ¬ o.listenersOk then t5
                else t5 ++ [ApplyPhase.cleanupPhase]
            else if ¬ o.needDelete then t3
            else t3 ++ [ApplyPhase.cleanupPhase]
          else t3 ++ [ApplyPhase.cleanupPhase]

end nlbv2

namespace clbv1

/-! ### CLB model (`pkg/model` as used by the clbv1 model applier) -/

/-- The fields of a CLB listener used by the clbv1 listener logic.
`namedKeyManaged` models the listener's named key combined with the
service-ownership check, as in the nlbv2 model. -/
structure Listener where
  protocol : String
  listenerPort : Nat
  namedKeyManaged : Option Bool
deriving DecidableEq

/-- The (protocol, port) pairing between desired and observed CLB
listeners. -/
def listenerPairMatch (l r : Listener) : Bool :=
  l.protocol == r.protocol && l.listenerPort == r.listenerPort

/-- Modelled from the spec: `buildActionsForListeners` (clbv1) is not
under `src/` (only its caller is).  Per the spec it matches desired and
observed listeners by (protocol, port): unmatched desired listeners
become create actions, matched pairs become update actions, unmatched
observed listeners become delete actions, and on a reused
(user-managed) load balancer a deletion candidate is skipped unless it
carries the cluster's ownership tag. -/
def buildActionsForListeners (lbUserManaged : Bool) (localLs remoteLs : List Listener) :
    List Listener × List (Listener × Listener) × List Listener :=
  (localLs.filter (fun l => !(remoteLs.any (fun r => listenerPairMatch l r))),
   localLs.filterMap (fun l => (remoteLs.find? (fun r => listenerPairMatch l r)).map (fun r => (l, r))),
   remoteLs.filter (fun r => !(localLs.any (fun l => listenerPairMatch l r)) &&
     (if lbUserManaged then r.namedKeyManaged == some true else true)))

/-- One executed CLB listener action. -/
inductive ExecAction
  | deleteAction (r : Listener)
  | createAction (l : Listener)
  | updateAction (l r : Listener)
deriving DecidableEq

/-- The HTTPS protocol constant (`model.HTTPS`). -/
def httpsProto : String := "https"

/-- Position class of an executed action: deletions first (0), then
creations (1), then updates (2). -/
def execRank : ExecAction → Nat
  | .deleteAction _ => 0
  | .createAction _ => 1
  | .updateAction _ _ => 2

/-- Does the executed action concern an HTTPS listener? -/
def execIsHttps : ExecAction → Bool
  | .deleteAction r => r.protocol == httpsProto
  | .createAction l => l.protocol == httpsProto
  | .updateAction l _ => l.protocol == httpsProto

/-- The ordering invariant between two executed CLB listener actions
`a` before `b`: the action kinds are in delete-create-update order;
among deletions an HTTPS deletion is never before a plain one; among
creations a plain creation is never before an HTTPS one. -/
def execOrdered (a b : ExecAction) : Prop :=
  execRank a ≤ execRank b ∧
  (execRank a = 0 → execRank b = 0 → execIsHttps a = true → execIsHttps b = true) ∧
  (execRank a = 1 → execRank b = 1 → execIsHttps b = true → execIsHttps a = true)

instance (a b : ExecAction) : Decidable (execOrdered a b) := by
  unfold execOrdered
  infer_instance

/-- `applyListeners(reqCtx, local, remote)` (clbv1, lines 688-739) as
the executed action sequence: builds the three action lists, moves
HTTPS creations first and HTTPS deletions last (the two
`sort.SliceStable` calls partition on the HTTPS test), then executes
deletions, creations and updates in that order. -/
def applyListeners (lbUserManaged forceOverride : Bool)
    (localLs remoteLs : List Listener) : List ExecAction :=
  if lbUserManaged ∧ ¬ forceOverride then []
  else
    let acts := buildActionsForListeners lbUserManaged localLs remoteLs
    let createActions := acts.1
    let updateActions := acts.2.1
    let deleteActions := acts.2.2
    -- make https come first
    let createActions := createActions.filter (fun l => l.protocol == httpsProto)
      ++ createActions.filter (fun l => !(l.protocol == httpsProto))
    -- make https at last
    let deleteActions := deleteActions.filter (fun r => !(r.protocol == httpsProto))
      ++ deleteActions.filter (fun r => r.protocol == httpsProto)
    deleteActions.map ExecAction.deleteAction
      ++ createActions.map ExecAction.createAction
      ++ updateActions.map (fun p => ExecAction.updateAction p.1 p.2)

/-! ### `cleanup` (clbv1, lines 741-782) -/

/-- The fields of `model.BackendAttribute` used by cleanup. -/
structure BackendAttribute where
  serverId : String
  isUserManaged : Bool
deriving DecidableEq

/-- The fields of `model.VServerGroup` used by cleanup.
`managedByMyService` models `isVGroupManagedByMyService(vg, service)`,
which is not under `src/`: per the spec it checks the group's
ownership tag (named key) against this cluster and service. -/
structure VServerGroup where
  vGroupId : String
  vGroupName : String
  managedByMyService : Bool
  backends : List BackendAttribute
deriving DecidableEq

/-- One operation issued by the clbv1 cleanup pass. -/
inductive CleanupOp
  | batchRemoveBackends (vg : VServerGroup) (del : List BackendAttribute)
  | deleteVServerGroup (vgId : String)
deriving DecidableEq

/-- One iteration of the clbv1 cleanup loop: the operations (none or
one) issued for the remote vserver group `vg`. -/
def cleanupOpsForVG (localVGs : List VServerGroup) (vg : VServerGroup) :
    List CleanupOp :=
  if localVGs.any (fun l => vg.vGroupId == l.vGroupId) then []
  else if ¬ vg.managedByMyService then
    -- user managed vgroup: keep it, clean non-user-managed backends
    let del := vg.backends.filter (fun b => !b.isUserManaged)
    if del.length > 0 then [.batchRemoveBackends vg del] else []
  else [.deleteVServerGroup vg.vGroupId]

/-- `cleanup(reqCtx, local, remote)` (clbv1) as the list of issued
cleanup operations. -/
def cleanup (localVGs remoteVGs : List VServerGroup) : List CleanupOp :=
  remoteVGs.foldl (fun ops vg => ops ++ cleanupOpsForVG localVGs vg) []

/-- The sequence of phases executed by `Apply` (clbv1, lines 469-539):
unlike the nlbv2 applier, an empty remote load-balancer id makes
`Apply` return before the server-group and cleanup phases, whatever the
hash gate says. -/
def applyTrace (hashChanged dryRun : Bool) (o : ApplyOracle) : List ApplyPhase :=
  let t0 := [ApplyPhase.buildLBRemote]
  if ¬ o.buildLBOk then t0
  else
    let gate := hashChanged ∨ dryRun
    if gate ∧ o.attrResult = some false then t0 ++ [ApplyPhase.applyLBAttr]
    else
      let t1 := t0 ++ (if gate then [ApplyPhase.applyLBAttr] else [])
      if o.lbIdEmpty then t1
      else
        let t2 := t1 ++ [ApplyPhase.sgBuild]
        if ¬ o.sgBuildOk then t2
        else
          let t3 := t2 ++ [ApplyPhase.applyVGroupsPhase]
          if ¬ o.vgroupsOk then t3
          else
            if gate then
              let t4 := t3 ++ [ApplyPhase.lisBuild]
              if ¬ o.lisBuildOk then t4
              else
                let t5 := t4 ++ [ApplyPhase.applyListenersPhase]
                if ¬ o.listenersOk then t5
                else t5 ++ [ApplyPhase.cleanupPhase]
            else t3 ++ [ApplyPhase.cleanupPhase]

end clbv1

/-!
## Theorems

One theorem per claim (with a witness when the theorem carries
hypotheses, and a counterexample when the claim as stated fails).
-/

namespace route

/-- Claim C4, counterexample: the claim states that the containment
check returns `(equal = false, contains = true)` for outside
`10.0.0.0/8` and inside `10.1.0.0/16`, but `containsRoute` returns
`(containsEqual = true, realContains = true)` there — its first
component is contains-or-equal, not strict equality. -/
theorem containsRoute_claim_counterexample :
    containsRoute (parseCIDR (gs "10.0.0.0/8")) (gs "10.1.0.0/16")
      = Except.ok (true, true) ∧
    (Except.ok ((true, true)) : Except GoStr (Bool × Bool)) ≠ Except.ok ((false, true)) := by
  decide

/-- Claim C4 (amended): the containment function returns
`(true, true)` (contains-or-equal, strictly-contains) for outside
`10.0.0.0/8` and inside `10.1.0.0/16`; `(true, false)` for outside
`10.0.0.0/8` and inside `10.0.0.0/8`; `(true, true)` for a nil outside
and every inside; for a parsable inside that is not the canonical
rendering of the outside, the result is `(true, true)` exactly when
both the first and the last address of the inside CIDR fall within the
outside network; and an unparsable inside CIDR yields an error. -/
theorem containsRoute_spec :
    containsRoute (parseCIDR (gs "10.0.0.0/8")) (gs "10.1.0.0/16") = Except.ok (true, true) ∧
    containsRoute (parseCIDR (gs "10.0.0.0/8")) (gs "10.0.0.0/8") = Except.ok (true, false) ∧
    (∀ s : GoStr, containsRoute none s = Except.ok (true, true)) ∧
    (∀ (out cidr : IPNet) (s : GoStr), parseCIDR s = some cidr → netString out ≠ s →
      (containsRoute (some out) s = Except.ok (true, true) ↔
        ipnetContains out cidr.ip = true ∧ ipnetContains out (lastIPOf cidr) = true)) ∧
    (∀ (out : IPNet) (s : GoStr), parseCIDR s = none →
      containsRoute (some out) s
        = Except.error (gs "ignoring route " ++ s ++ gs ", unparsable CIDR")) := by
  refine ⟨by decide, by decide, fun s => rfl, ?_, ?_⟩
  · intro out cidr s hp hne
    have hbeq : (netString out == s) = false := beq_eq_false_iff_ne.mpr hne
    cases h1 : ipnetContains out cidr.ip <;>
      cases h2 : ipnetContains out (lastIPOf cidr) <;>
        simp [containsRoute, hp, hbeq, h1, h2]
  · intro out s hp
    simp [containsRoute, hp]

/-- Claim C4, witness for the amended theorem at concrete inputs. -/
theorem containsRoute_spec_witness :
    (parseCIDR (gs "10.1.0.0/16") = some (IPNet.mk [10, 1, 0, 0] [255, 255, 0, 0]) ∧
      netString (IPNet.mk [10, 0, 0, 0] [255, 0, 0, 0]) ≠ gs "10.1.0.0/16") ∧
    (containsRoute (some (IPNet.mk [10, 0, 0, 0] [255, 0, 0, 0])) (gs "10.1.0.0/16")
        = Except.ok (true, true) ↔
      ipnetContains (IPNet.mk [10, 0, 0, 0] [255, 0, 0, 0]) ([10, 1, 0, 0] : List Nat) = true ∧
      ipnetContains (IPNet.mk [10, 0, 0, 0] [255, 0, 0, 0])
        (lastIPOf (IPNet.mk [10, 1, 0, 0] [255, 255, 0, 0])) = true) ∧
    (parseCIDR (gs "bad") = none ∧
      containsRoute (some (IPNet.mk [10, 0, 0, 0] [255, 0, 0, 0])) (gs "bad")
        = Except.error (gs "ignoring route " ++ gs "bad" ++ gs ", unparsable CIDR")) :=
  ⟨⟨by decide, by decide⟩,
   containsRoute_spec.2.2.2.1 (IPNet.mk [10, 0, 0, 0] [255, 0, 0, 0])
     (IPNet.mk [10, 1, 0, 0] [255, 255, 0, 0]) (gs "10.1.0.0/16") (by decide) (by decide),
   by decide,
   containsRoute_spec.2.2.2.2 (IPNet.mk [10, 0, 0, 0] [255, 0, 0, 0]) (gs "bad") (by decide)⟩

end route

namespace route

/-- Claim C8, counterexample: when `RouteTableIDS` is configured to a
comma-separated list, `getRouteTables` returns all configured tables
without error — here two — so it does not always return exactly one
table or fail. -/
theorem getRouteTables_claim_counterexample :
    getRouteTables (gs "tbl-a,tbl-b") (Except.ok (gs "vpc-1")) (fun _ => Except.ok [])
      = Except.ok [gs "tbl-a", gs "tbl-b"] ∧
    ([gs "tbl-a", gs "tbl-b"] : List GoStr).length ≠ 1 := by
  decide

/-- Claim C8 (amended): when no route-table IDs are configured,
`getRouteTables` either returns exactly one table or fails — it errors
whenever the cloud listing yields zero tables or more than one; when
route-table IDs are configured, it returns the comma-split configured
list as-is, which may hold several tables. -/
theorem getRouteTables_spec :
    (∀ (vpcRes : Except GoStr GoStr) (listRes : GoStr → Except GoStr (List GoStr))
        (tables : List GoStr),
      getRouteTables [] vpcRes listRes = Except.ok tables → tables.length = 1) ∧
    (∀ (vpcId : GoStr) (listRes : GoStr → Except GoStr (List GoStr)) (ts : List GoStr),
      listRes vpcId = Except.ok ts → ts.length ≠ 1 →
      ∃ msg, getRouteTables [] (Except.ok vpcId) listRes = Except.error msg) ∧
    (∀ (cfg vpcId : GoStr) (listRes : GoStr → Except GoStr (List GoStr)),
      cfg ≠ [] →
      getRouteTables cfg (Except.ok vpcId) listRes = Except.ok (goSplit cfg ',')) := by
  refine ⟨?_, ?_, ?_⟩
  · intro vpcRes listRes tables h
    match vpcRes with
    | .error e => simp [getRouteTables] at h
    | .ok vpcId =>
      simp only [getRouteTables, ne_eq, not_true_eq_false, if_false] at h
      match hl : listRes vpcId with
      | .error e => rw [hl] at h; exact absurd h (by simp)
      | .ok ts =>
        rw [hl] at h
        dsimp only at h
        by_cases h1 : ts.length > 1
        · rw [if_pos h1] at h; exact absurd h (by simp)
        · rw [if_neg h1] at h
          by_cases h0 : ts.length = 0
          · rw [if_pos h0] at h; exact absurd h (by simp)
          · rw [if_neg h0] at h
            cases h
            omega
  · intro vpcId listRes ts hl hne
    by_cases h1 : ts.length > 1
    · exact ⟨gs "multiple route tables found", by simp [getRouteTables, hl, h1]⟩
    · have h0 : ts.length = 0 := by omega
      exact ⟨gs "no route tables found", by simp [getRouteTables, hl, h1, h0]⟩
  · intro cfg vpcId listRes hcfg
    simp [getRouteTables, hcfg]

/-- Claim C8, witness: the amended theorem at an empty listing (error)
and at a configured single table id. -/
theorem getRouteTables_spec_witness :
    (∃ msg, getRouteTables [] (Except.ok (gs "vpc-1"))
        (fun _ => Except.ok ([] : List GoStr)) = Except.error msg) ∧
    getRouteTables (gs "tbl-a") (Except.ok (gs "vpc-1")) (fun _ => Except.ok [])
      = Except.ok (goSplit (gs "tbl-a") ',') :=
  ⟨getRouteTables_spec.2.1 (gs "vpc-1") _ [] rfl (by decide),
   getRouteTables_spec.2.2 (gs "tbl-a") (gs "vpc-1") _ (by decide)⟩

end route

namespace route

/-- Claim C7: per batch entry, a create failure coded
`VPC_ROUTE_ENTRY_CIDR_BLOCK_DUPLICATE` or `VPC_ROUTE_ENTRY_STATUS_ERROR`
and a delete failure coded `VPC_ROUTER_ENTRY_NOT_EXIST` are reclassified
as success — the entry follows the success path (never the requeue
path) — and exactly the remaining failed entries are requeued
individually; the batch call itself still returns success, processing
every entry. -/
theorem batchRoutes_ignorable_codes :
    (∀ (condOk : GoStr → Bool) (s : RouteUpdateStatus),
      (s.failedCode = gs "VPC_ROUTE_ENTRY_CIDR_BLOCK_DUPLICATE" ∨
       s.failedCode = gs "VPC_ROUTE_ENTRY_STATUS_ERROR" ∨ s.failed = false) ↔
      processAddStatus condOk s ≠ BatchOutcome.requeued) ∧
    (∀ s : RouteUpdateStatus,
      (s.failedCode = gs "VPC_ROUTER_ENTRY_NOT_EXIST" ∨ s.failed = false) ↔
      processDeleteStatus s ≠ BatchOutcome.requeued) ∧
    (∀ (condOk : GoStr → Bool) (routes : List Route) (statuses : List RouteUpdateStatus),
      ∃ outs, batchAddRoutes condOk routes (Except.ok statuses) = Except.ok outs ∧
        (routes ≠ [] → outs = statuses.map (processAddStatus condOk))) ∧
    (∀ (routes : List Route) (statuses : List RouteUpdateStatus),
      ∃ outs, batchDeleteRoutes routes (Except.ok statuses) = Except.ok outs ∧
        (routes ≠ [] → outs = statuses.map processDeleteStatus)) := by
  refine ⟨?_, ?_, ?_, ?_⟩
  · intro condOk s
    by_cases h1 : s.failedCode = gs "VPC_ROUTE_ENTRY_CIDR_BLOCK_DUPLICATE" <;>
      by_cases h2 : s.failedCode = gs "VPC_ROUTE_ENTRY_STATUS_ERROR" <;>
        cases hf : s.failed <;>
          by_cases hc : condOk s.nodeName = true <;>
            simp +decide [processAddStatus, h1, h2, hf, hc, beq_iff_eq]
  · intro s
    by_cases h1 : s.failedCode = gs "VPC_ROUTER_ENTRY_NOT_EXIST" <;>
      cases hf : s.failed <;>
        simp +decide [processDeleteStatus, h1, hf, beq_iff_eq]
  · intro condOk routes statuses
    by_cases hr : routes = []
    · exact ⟨[], by simp [batchAddRoutes, hr], fun h => (h hr).elim⟩
    · have hlen : routes.length ≠ 0 := by simpa using hr
      exact ⟨statuses.map (processAddStatus condOk), by simp [batchAddRoutes, hlen], fun _ => rfl⟩
  · intro routes statuses
    by_cases hr : routes = []
    · exact ⟨[], by simp [batchDeleteRoutes, hr], fun h => (h hr).elim⟩
    · have hlen : routes.length ≠ 0 := by simpa using hr
      exact ⟨statuses.map processDeleteStatus, by simp [batchDeleteRoutes, hlen], fun _ => rfl⟩

/-- Claim C7, witness: a duplicate-coded create failure and a
not-found-coded delete failure are not requeued, and a one-route batch
with an otherwise-coded failed status still returns success with the
entry processed. -/
theorem batchRoutes_ignorable_codes_witness :
    processAddStatus (fun _ => true)
      (RouteUpdateStatus.mk true (gs "VPC_ROUTE_ENTRY_CIDR_BLOCK_DUPLICATE") [] [] [])
      ≠ BatchOutcome.requeued ∧
    processDeleteStatus
      (RouteUpdateStatus.mk true (gs "VPC_ROUTER_ENTRY_NOT_EXIST") [] [] [])
      ≠ BatchOutcome.requeued ∧
    ∃ outs, batchAddRoutes (fun _ => true) [Route.mk [] [] []]
        (Except.ok [RouteUpdateStatus.mk true (gs "SOME_OTHER_CODE") [] [] []])
        = Except.ok outs ∧
      ([Route.mk [] [] []] ≠ ([] : List Route) →
        outs = [RouteUpdateStatus.mk true (gs "SOME_OTHER_CODE") [] [] []].map
          (processAddStatus (fun _ => true))) :=
  ⟨(batchRoutes_ignorable_codes.1 (fun _ => true)
      (RouteUpdateStatus.mk true (gs "VPC_ROUTE_ENTRY_CIDR_BLOCK_DUPLICATE") [] [] [])).mp
      (Or.inl (by decide)),
   (batchRoutes_ignorable_codes.2.1
      (RouteUpdateStatus.mk true (gs "VPC_ROUTER_ENTRY_NOT_EXIST") [] [] [])).mp
      (Or.inl (by decide)),
   batchRoutes_ignorable_codes.2.2.1 (fun _ => true) [Route.mk [] [] []]
      [RouteUpdateStatus.mk true (gs "SOME_OTHER_CODE") [] [] []]⟩

end route

namespace route

/-- Claim C6: inside `createRouteForInstance`, when the `k`-th
`CreateRoute` attempt fails with a duplicate-CIDR error (after `k`
non-duplicate failures), a `FindRoute` lookup follows: a found route is
returned as success after exactly `k+1` create calls, and an empty
lookup terminates the backoff immediately with the wrapped error after
exactly `k+1` create calls — no further retries; and when every attempt
fails with a non-duplicate error, exactly `createBackoffSteps = 3`
create calls are made before the error surfaces. -/
theorem createRoute_backoff_failfast :
    (∀ (o : CreateOracle) (providerID : GoStr) (k : Nat), k < createBackoffSteps →
      (∀ j, j < k → ∃ e, o.createResult j = Except.error e ∧
        goStrContains e dupCidrErr = false) →
      ∀ e, o.createResult k = Except.error e → goStrContains e dupCidrErr = true →
        ((∀ r, o.findResult k = some r →
            createRouteForInstance o providerID = (Except.ok r, k + 1)) ∧
         (o.findResult k = none →
            createRouteForInstance o providerID
              = (Except.error (createRouteErrMsg providerID e), k + 1)))) ∧
    (∀ (o : CreateOracle) (providerID : GoStr),
      (∀ j, j < createBackoffSteps → ∃ e, o.createResult j = Except.error e ∧
        goStrContains e dupCidrErr = false) →
      ∃ e, o.createResult 2 = Except.error e ∧
        createRouteForInstance o providerID
          = (Except.error (createRouteErrMsg providerID e), createBackoffSteps)) := by
  constructor
  · intro o pid k hk hprev e he hdup
    have hk3 : k < 3 := hk
    constructor
    · intro r hfind
      interval_cases k
      · simp [createRouteForInstance, createBackoffSteps, createRouteLoop, he, hdup, hfind]
      · obtain ⟨e0, h0, h0d⟩ := hprev 0 (by omega)
        simp [createRouteForInstance, createBackoffSteps, createRouteLoop,
          h0, h0d, he, hdup, hfind]
      · obtain ⟨e0, h0, h0d⟩ := hprev 0 (by omega)
        obtain ⟨e1, h1, h1d⟩ := hprev 1 (by omega)
        simp [createRouteForInstance, createBackoffSteps, createRouteLoop,
          h0, h0d, h1, h1d, he, hdup, hfind]
    · intro hfind
      interval_cases k
      · simp [createRouteForInstance, createBackoffSteps, createRouteLoop, he, hdup, hfind]
      · obtain ⟨e0, h0, h0d⟩ := hprev 0 (by omega)
        simp [createRouteForInstance, createBackoffSteps, createRouteLoop,
          h0, h0d, he, hdup, hfind]
      · obtain ⟨e0, h0, h0d⟩ := hprev 0 (by omega)
        obtain ⟨e1, h1, h1d⟩ := hprev 1 (by omega)
        simp [createRouteForInstance, createBackoffSteps, createRouteLoop,
          h0, h0d, h1, h1d, he, hdup, hfind]
  · intro o pid hall
    obtain ⟨e0, h0, h0d⟩ := hall 0 (by decide)
    obtain ⟨e1, h1, h1d⟩ := hall 1 (by decide)
    obtain ⟨e2, h2, h2d⟩ := hall 2 (by decide)
    exact ⟨e2, h2, by simp [createRouteForInstance, createBackoffSteps, createRouteLoop,
      h0, h0d, h1, h1d, h2, h2d]⟩

/-- Claim C6, witness: a first-attempt duplicate error with an empty
lookup surfaces after one single create call, and an oracle that always
throttles is retried exactly three times. -/
theorem createRoute_backoff_failfast_witness :
    createRouteForInstance
      ⟨fun _ => Except.error (gs "code: InvalidCIDRBlock.Duplicate"), fun _ => none⟩
      (gs "i-abc")
      = (Except.error (createRouteErrMsg (gs "i-abc")
          (gs "code: InvalidCIDRBlock.Duplicate")), 1) ∧
    (∃ e, (CreateOracle.mk (fun _ => Except.error (gs "Throttling")) (fun _ => none)).createResult 2
        = Except.error e ∧
      createRouteForInstance
        (CreateOracle.mk (fun _ => Except.error (gs "Throttling")) (fun _ => none))
        (gs "i-abc")
        = (Except.error (createRouteErrMsg (gs "i-abc") e), createBackoffSteps)) :=
  ⟨(createRoute_backoff_failfast.1
      ⟨fun _ => Except.error (gs "code: InvalidCIDRBlock.Duplicate"), fun _ => none⟩
      (gs "i-abc") 0 (by decide) (fun j hj => absurd hj (Nat.not_lt_zero j))
      (gs "code: InvalidCIDRBlock.Duplicate") rfl (by decide)).2 rfl,
   createRoute_backoff_failfast.2
      (CreateOracle.mk (fun _ => Except.error (gs "Throttling")) (fun _ => none))
      (gs "i-abc") (fun j _ => ⟨gs "Throttling", rfl, by decide⟩)⟩

end route

namespace route

/-- Helper: the per-node conflict test holds exactly when the node's
pod CIDR resolves and either strictly contains the route's CIDR (as
`containsRoute` computes it) or is identical to it while the owners
differ. -/
theorem nodeConflictsWith_iff (r : Route) (n : Node) :
    nodeConflictsWith r n = true ↔
      ∃ net cidrStr, getIPv4RouteForNode n = Except.ok (some net, cidrStr) ∧
        (cidrRealContains net r.destinationCIDR = true ∨
         (cidrOnlyEqual net r.destinationCIDR = true ∧ r.providerId ≠ n.providerId)) := by
  constructor
  · intro h
    unfold nodeConflictsWith at h
    match hroute : getIPv4RouteForNode n with
    | .error u => rw [hroute] at h; simp at h
    | .ok (none, s) => rw [hroute] at h; simp at h
    | .ok (some net, s) =>
      rw [hroute] at h
      dsimp only at h
      match hc : containsRoute (some net) r.destinationCIDR with
      | .error e => rw [hc] at h; simp at h
      | .ok (e, c) =>
        rw [hc] at h
        dsimp only at h
        refine ⟨net, s, rfl, ?_⟩
        match hcv : c, h with
        | true, h => exact Or.inl (by simp [cidrRealContains, hc])
        | false, h =>
          simp only [Bool.false_or, Bool.and_eq_true, decide_eq_true_eq] at h
          exact Or.inr ⟨by simp [cidrOnlyEqual, hc, h.1], h.2⟩
  · rintro ⟨net, s, hroute, hdisj⟩
    unfold nodeConflictsWith
    rw [hroute]
    dsimp only
    match hc : containsRoute (some net) r.destinationCIDR with
    | .error e =>
      exfalso
      rcases hdisj with h | ⟨h, _⟩
      · simp [cidrRealContains, hc] at h
      · simp [cidrOnlyEqual, hc] at h
    | .ok (e, c) =>
      dsimp only
      rcases hdisj with h | ⟨he, hne⟩
      · have hcv : c = true := by simpa [cidrRealContains, hc] using h
        simp [hcv]
      · have h2 : e = true ∧ c = false := by
          simpa [cidrOnlyEqual, hc] using he
        simp [h2.1, h2.2, hne]

/-- Helper: the delete loop of `syncTableRoutes` only plans deletions. -/
theorem syncDelOp_isDelete {cc : Option IPNet} {table : GoStr} {nodes : List Node}
    {r : Route} {op : RouteOp} (h : syncDelOp cc table nodes r = some op) :
    routeOpIsDelete op = true := by
  unfold syncDelOp at h
  split at h
  · exact absurd h (by simp)
  · split at h
    · exact absurd h (by simp)
    · split at h
      · cases h; rfl
      · exact absurd h (by simp)

/-- Helper: the create loop of `syncTableRoutes` only plans additions. -/
theorem syncAddOp_isAdd {n : Node} {op : RouteOp} (h : syncAddOp n = some op) :
    routeOpIsDelete op = false := by
  unfold syncAddOp at h
  split at h
  · exact absurd h (by simp)
  · split at h
    · exact absurd h (by simp)
    · split at h
      · exact absurd h (by simp)
      · rename_i heq
        split at h
        · exact absurd h (by simp)
        · cases h; rfl

/-- Claim C5: an observed route conflicts with the node set iff some
node's pod CIDR strictly contains the route's CIDR (in the sense of
`containsRoute`'s `realContains`) or is identical to it (the
`containsEqual`-only outcome) while the owning instance ids differ; and
in the plan of `syncTableRoutes` no deletion comes after a creation,
while every in-scope conflicting route is planned for deletion. -/
theorem conflict_detection_and_plan_order :
    (∀ (r : Route) (nodes : List Node),
      conflictWithNodes r nodes = true ↔
        ∃ n ∈ nodes, ∃ net cidrStr,
          getIPv4RouteForNode n = Except.ok (some net, cidrStr) ∧
          (cidrRealContains net r.destinationCIDR = true ∨
           (cidrOnlyEqual net r.destinationCIDR = true ∧ r.providerId ≠ n.providerId))) ∧
    (∀ (cfg table : GoStr) (routes : List Route) (nodes : List Node)
        (cc : Option IPNet) (ops : List RouteOp),
      clusterCIDROf cfg = Except.ok cc →
      syncTableRoutes cfg table (Except.ok routes) nodes = Except.ok ops →
      ops.Pairwise (fun a b => routeOpIsDelete b = true → routeOpIsDelete a = true) ∧
      (∀ r ∈ routes, ∀ (ceq ccon : Bool),
        containsRoute cc r.destinationCIDR = Except.ok (ceq, ccon) →
        ceq = true → conflictWithNodes r nodes = true →
        RouteOp.deleteRoute table r.providerId r.destinationCIDR ∈ ops)) := by
  constructor
  · intro r nodes
    rw [conflictWithNodes, List.any_eq_true]
    constructor
    · rintro ⟨n, hn, hp⟩
      obtain ⟨net, s, hroute, hd⟩ := (nodeConflictsWith_iff r n).mp hp
      exact ⟨n, hn, net, s, hroute, hd⟩
    · rintro ⟨n, hn, net, s, hroute, hd⟩
      exact ⟨n, hn, (nodeConflictsWith_iff r n).mpr ⟨net, s, hroute, hd⟩⟩
  · intro cfg table routes nodes cc ops hcc hsync
    unfold syncTableRoutes at hsync
    rw [hcc] at hsync
    dsimp only at hsync
    have hops : routes.filterMap (syncDelOp cc table nodes) ++ nodes.filterMap syncAddOp
        = ops := by
      simpa using hsync
    subst hops
    constructor
    · refine List.pairwise_append.mpr ⟨?_, ?_, ?_⟩
      · refine List.pairwise_of_forall_mem_list ?_
        intro a ha b hb
        obtain ⟨ra, _, hra⟩ := List.mem_filterMap.mp ha
        intro _
        exact syncDelOp_isDelete hra
      · refine List.pairwise_of_forall_mem_list ?_
        intro a ha b hb
        obtain ⟨nb, _, hnb⟩ := List.mem_filterMap.mp hb
        intro hdel
        exact absurd hdel (by simp [syncAddOp_isAdd hnb])
      · intro a ha b hb
        obtain ⟨nb, _, hnb⟩ := List.mem_filterMap.mp hb
        intro hdel
        exact absurd hdel (by simp [syncAddOp_isAdd hnb])
    · intro r hr ceq ccon hcon hceq hconf
      refine List.mem_append.mpr (Or.inl ?_)
      refine List.mem_filterMap.mpr ⟨r, hr, ?_⟩
      simp [syncDelOp, hcon, hceq, hconf]

/-- Claim C5, witness: node `node-a` owns `10.1.0.0/16`; an observed
route `10.1.5.0/24` owned by a different instance conflicts, and
`syncTableRoutes` plans its deletion before the node's route creation. -/
theorem conflict_detection_and_plan_order_witness :
    (conflictWithNodes
        (Route.mk (gs "r") (gs "10.1.5.0/24") (gs "i-b"))
        [Node.mk (gs "node-a") (gs "i-a") false false false
          (Except.ok (some (IPNet.mk [10, 1, 0, 0] [255, 255, 0, 0]), gs "10.1.0.0/16"))]
      = true ↔
      ∃ n ∈ [Node.mk (gs "node-a") (gs "i-a") false false false
          (Except.ok (some (IPNet.mk [10, 1, 0, 0] [255, 255, 0, 0]), gs "10.1.0.0/16"))],
        ∃ net cidrStr,
          getIPv4RouteForNode n = Except.ok (some net, cidrStr) ∧
          (cidrRealContains net (gs "10.1.5.0/24") = true ∨
           (cidrOnlyEqual net (gs "10.1.5.0/24") = true ∧ gs "i-b" ≠ n.providerId))) ∧
    ((List.Pairwise (fun a b => routeOpIsDelete b = true → routeOpIsDelete a = true)
        [RouteOp.deleteRoute (gs "tbl") (gs "i-b") (gs "10.1.5.0/24"),
         RouteOp.addRoute (gs "node-a") (gs "10.1.0.0/16")]) ∧
      (∀ r ∈ [Route.mk (gs "r") (gs "10.1.5.0/24") (gs "i-b")], ∀ (ceq ccon : Bool),
        containsRoute none r.destinationCIDR = Except.ok (ceq, ccon) →
        ceq = true →
        conflictWithNodes r
          [Node.mk (gs "node-a") (gs "i-a") false false false
            (Except.ok (some (IPNet.mk [10, 1, 0, 0] [255, 255, 0, 0]), gs "10.1.0.0/16"))]
          = true →
        RouteOp.deleteRoute (gs "tbl") r.providerId r.destinationCIDR ∈
          [RouteOp.deleteRoute (gs "tbl") (gs "i-b") (gs "10.1.5.0/24"),
           RouteOp.addRoute (gs "node-a") (gs "10.1.0.0/16")])) :=
  ⟨conflict_detection_and_plan_order.1
      (Route.mk (gs "r") (gs "10.1.5.0/24") (gs "i-b"))
      [Node.mk (gs "node-a") (gs "i-a") false false false
        (Except.ok (some (IPNet.mk [10, 1, 0, 0] [255, 255, 0, 0]), gs "10.1.0.0/16"))],
   conflict_detection_and_plan_order.2 [] (gs "tbl")
      [Route.mk (gs "r") (gs "10.1.5.0/24") (gs "i-b")]
      [Node.mk (gs "node-a") (gs "i-a") false false false
        (Except.ok (some (IPNet.mk [10, 1, 0, 0] [255, 255, 0, 0]), gs "10.1.0.0/16"))]
      none
      [RouteOp.deleteRoute (gs "tbl") (gs "i-b") (gs "10.1.5.0/24"),
       RouteOp.addRoute (gs "node-a") (gs "10.1.0.0/16")]
      (by decide) (by decide)⟩

end route

/-- Helper: a left fold that only appends per-element operations yields
the concatenation of the per-element operation lists. -/
theorem foldl_append_ops {α β : Type} (f : α → List β) (l : List α) (acc : List β) :
    l.foldl (fun ops r => ops ++ f r) acc = acc ++ l.flatMap f := by
  induction l generalizing acc with
  | nil => simp
  | cons x xs ih => simp [ih, List.append_assoc]

/-- Claim C3: in both cleanup passes, a server-group delete is issued
only for a remote group that is absent from the desired set and owned
by this cluster/service (non-nil named key whose ownership check
passes, not user-managed, parent not preserve-on-delete); and a
backend-removal operation targets a group on the protected side
(user-managed or without a service-owned named key) and removes exactly
its non-user-managed backend servers. -/
theorem cleanup_ownership_safety :
    (∀ (preserve : Bool) (localSGs remoteSGs : List nlbv2.ServerGroup),
      ∀ op ∈ nlbv2.cleanup preserve localSGs remoteSGs,
        (∀ sgId, op = nlbv2.CleanupOp.deleteServerGroup sgId →
          ∃ r ∈ remoteSGs, r.serverGroupId = sgId ∧ r.namedKey = some true ∧
            r.isUserManaged = false ∧ preserve = false ∧
            localSGs.any (fun l => l.serverGroupId == r.serverGroupId) = false) ∧
        (∀ r del, op = nlbv2.CleanupOp.batchRemoveServers r del →
          del = r.servers.filter (fun s => !s.isUserManaged) ∧
          (r.namedKey = none ∨ r.isUserManaged = true ∨ r.namedKey = some false))) ∧
    (∀ (localVGs remoteVGs : List clbv1.VServerGroup),
      ∀ op ∈ clbv1.cleanup localVGs remoteVGs,
        (∀ vgId, op = clbv1.CleanupOp.deleteVServerGroup vgId →
          ∃ vg ∈ remoteVGs, vg.vGroupId = vgId ∧ vg.managedByMyService = true ∧
            localVGs.any (fun l => vg.vGroupId == l.vGroupId) = false) ∧
        (∀ vg del, op = clbv1.CleanupOp.batchRemoveBackends vg del →
          del = vg.backends.filter (fun b => !b.isUserManaged) ∧
          vg.managedByMyService = false)) := by
  constructor
  · intro preserve localSGs remoteSGs op hop
    rw [nlbv2.cleanup, foldl_append_ops, List.nil_append, List.mem_flatMap] at hop
    obtain ⟨r, hr, hopr⟩ := hop
    constructor
    · intro sgId heq
      subst heq
      unfold nlbv2.cleanupOpsFor at hopr
      dsimp only at hopr
      split at hopr
      · simp at hopr
      · split at hopr
        · simp at hopr
        · split at hopr
          · split at hopr
            · simp at hopr
            · simp at hopr
          · rename_i hany hpres hprot
            simp only [List.mem_singleton] at hopr
            injection hopr with hid
            have hnk : r.namedKey = some true := by
              match hkv : r.namedKey with
              | none => exact absurd (Or.inl hkv) hprot
              | some true => rfl
              | some false => exact absurd (Or.inr (Or.inr hkv)) hprot
            have hum : r.isUserManaged = false := by
              match hv : r.isUserManaged with
              | false => rfl
              | true => exact absurd (Or.inr (Or.inl hv)) hprot
            have hpr : preserve = false := by
              simpa using hpres
            have hanyf : localSGs.any (fun l => l.serverGroupId == r.serverGroupId)
                = false := by
              simpa using hany
            exact ⟨r, hr, hid.symm, hnk, hum, hpr, hanyf⟩
    · intro r' del heq
      subst heq
      unfold nlbv2.cleanupOpsFor at hopr
      dsimp only at hopr
      split at hopr
      · simp at hopr
      · split at hopr
        · simp at hopr
        · split at hopr
          · rename_i hany hpres hprot
            split at hopr
            · simp only [List.mem_singleton] at hopr
              injection hopr with hrr hdel
              subst hrr
              refine ⟨hdel, ?_⟩
              rcases hprot with h | h | h
              · exact Or.inl h
              · exact Or.inr (Or.inl h)
              · exact Or.inr (Or.inr h)
            · simp at hopr
          · simp at hopr
  · intro localVGs remoteVGs op hop
    rw [clbv1.cleanup, foldl_append_ops, List.nil_append, List.mem_flatMap] at hop
    obtain ⟨vg, hvg, hopv⟩ := hop
    constructor
    · intro vgId heq
      subst heq
      unfold clbv1.cleanupOpsForVG at hopv
      dsimp only at hopv
      split at hopv
      · simp at hopv
      · split at hopv
        · split at hopv
          · simp at hopv
          · simp at hopv
        · rename_i hany hman
          simp only [List.mem_singleton] at hopv
          injection hopv with hid
          have hm : vg.managedByMyService = true := by
            simpa using hman
          have hanyf : localVGs.any (fun l => vg.vGroupId == l.vGroupId) = false := by
            simpa using hany
          exact ⟨vg, hvg, hid.symm, hm, hanyf⟩
    · intro vg' del heq
      subst heq
      unfold clbv1.cleanupOpsForVG at hopv
      dsimp only at hopv
      split at hopv
      · simp at hopv
      · split at hopv
        · rename_i hany hman
          split at hopv
          · simp only [List.mem_singleton] at hopv
            injection hopv with hvv hdel
            subst hvv
            refine ⟨hdel, ?_⟩
            simpa using hman
          · simp at hopv
        · simp at hopv

/-- Claim C3, witness: a user-managed remote group absent from the
desired set receives only a backend-removal of its non-user-managed
server, and an owned absent group receives the delete. -/
theorem cleanup_ownership_safety_witness :
    ((∀ r del,
        nlbv2.CleanupOp.batchRemoveServers
          (nlbv2.ServerGroup.mk "sg-1" "a" "" true "" [nlbv2.ServerGroupServer.mk "s1" false] (some false))
          [nlbv2.ServerGroupServer.mk "s1" false]
          = nlbv2.CleanupOp.batchRemoveServers r del →
        del = r.servers.filter (fun s => !s.isUserManaged) ∧
        (r.namedKey = none ∨ r.isUserManaged = true ∨ r.namedKey = some false)) ∧
     (∀ sgId,
        nlbv2.CleanupOp.deleteServerGroup "sg-2" = nlbv2.CleanupOp.deleteServerGroup sgId →
        ∃ r ∈ [nlbv2.ServerGroup.mk "sg-1" "a" "" true "" [nlbv2.ServerGroupServer.mk "s1" false] (some false),
               nlbv2.ServerGroup.mk "sg-2" "b" "" false "" [] (some true)],
          r.serverGroupId = sgId ∧ r.namedKey = some true ∧
          r.isUserManaged = false ∧ false = false ∧
          ([] : List nlbv2.ServerGroup).any (fun l => l.serverGroupId == r.serverGroupId) = false)) :=
  ⟨((cleanup_ownership_safety.1 false []
      [nlbv2.ServerGroup.mk "sg-1" "a" "" true "" [nlbv2.ServerGroupServer.mk "s1" false] (some false),
       nlbv2.ServerGroup.mk "sg-2" "b" "" false "" [] (some true)]
      (nlbv2.CleanupOp.batchRemoveServers
        (nlbv2.ServerGroup.mk "sg-1" "a" "" true "" [nlbv2.ServerGroupServer.mk "s1" false] (some false))
        [nlbv2.ServerGroupServer.mk "s1" false])
      (by decide)).2),
   ((cleanup_ownership_safety.1 false []
      [nlbv2.ServerGroup.mk "sg-1" "a" "" true "" [nlbv2.ServerGroupServer.mk "s1" false] (some false),
       nlbv2.ServerGroup.mk "sg-2" "b" "" false "" [] (some true)]
      (nlbv2.CleanupOp.deleteServerGroup "sg-2")
      (by decide)).1)⟩

namespace clbv1

/-- Helper: the fully assembled executed CLB listener sequence —
deletions (plain first, HTTPS last), then creations (HTTPS first,
plain last), then updates — satisfies the pairwise ordering invariant,
for arbitrary action lists. -/
theorem execOrdered_pairwise_assembled (ds cs : List Listener)
    (us : List (Listener × Listener)) :
    (((ds.filter (fun r => !(r.protocol == httpsProto))
        ++ ds.filter (fun r => r.protocol == httpsProto)).map ExecAction.deleteAction
      ++ (cs.filter (fun l => l.protocol == httpsProto)
        ++ cs.filter (fun l => !(l.protocol == httpsProto))).map ExecAction.createAction)
      ++ us.map (fun p => ExecAction.updateAction p.1 p.2)).Pairwise execOrdered := by
  rw [List.map_append, List.map_append]
  refine List.pairwise_append.mpr ⟨List.pairwise_append.mpr ⟨?_, ?_, ?_⟩, ?_, ?_⟩
  · -- deletions: plain block ++ https block
    refine List.pairwise_append.mpr ⟨?_, ?_, ?_⟩
    · refine List.pairwise_of_forall_mem_list ?_
      intro a ha b hb
      obtain ⟨ra, hra, rfl⟩ := List.mem_map.mp ha
      obtain ⟨rb, hrb, rfl⟩ := List.mem_map.mp hb
      have hpa := (List.mem_filter.mp hra).2
      refine ⟨Nat.le_refl _, fun _ _ hh => ?_, fun h1 _ _ => by simp [execRank] at h1⟩
      simp only [execIsHttps] at hh
      simp [hh] at hpa
    · refine List.pairwise_of_forall_mem_list ?_
      intro a ha b hb
      obtain ⟨ra, hra, rfl⟩ := List.mem_map.mp ha
      obtain ⟨rb, hrb, rfl⟩ := List.mem_map.mp hb
      have hpb := (List.mem_filter.mp hrb).2
      exact ⟨Nat.le_refl _, fun _ _ _ => by simpa [execIsHttps] using hpb,
        fun h1 _ _ => by simp [execRank] at h1⟩
    · intro a ha b hb
      obtain ⟨ra, hra, rfl⟩ := List.mem_map.mp ha
      obtain ⟨rb, hrb, rfl⟩ := List.mem_map.mp hb
      have hpb := (List.mem_filter.mp hrb).2
      exact ⟨Nat.le_refl _, fun _ _ _ => by simpa [execIsHttps] using hpb,
        fun h1 _ _ => by simp [execRank] at h1⟩
  · -- creations: https block ++ plain block
    refine List.pairwise_append.mpr ⟨?_, ?_, ?_⟩
    · refine List.pairwise_of_forall_mem_list ?_
      intro a ha b hb
      obtain ⟨la, hla, rfl⟩ := List.mem_map.mp ha
      obtain ⟨lb, hlb, rfl⟩ := List.mem_map.mp hb
      have hpa := (List.mem_filter.mp hla).2
      exact ⟨Nat.le_refl _, fun h0 _ _ => by simp [execRank] at h0,
        fun _ _ _ => by simpa [execIsHttps] using hpa⟩
    · refine List.pairwise_of_forall_mem_list ?_
      intro a ha b hb
      obtain ⟨la, hla, rfl⟩ := List.mem_map.mp ha
      obtain ⟨lb, hlb, rfl⟩ := List.mem_map.mp hb
      have hpb := (List.mem_filter.mp hlb).2
      refine ⟨Nat.le_refl _, fun h0 _ _ => by simp [execRank] at h0, fun _ _ hh => ?_⟩
      simp only [execIsHttps] at hh
      simp [hh] at hpb
    · intro a ha b hb
      obtain ⟨la, hla, rfl⟩ := List.mem_map.mp ha
      obtain ⟨lb, hlb, rfl⟩ := List.mem_map.mp hb
      have hpa := (List.mem_filter.mp hla).2
      exact ⟨Nat.le_refl _, fun h0 _ _ => by simp [execRank] at h0,
        fun _ _ _ => by simpa [execIsHttps] using hpa⟩
  · -- deletions before creations
    intro a ha b hb
    rw [← List.map_append] at ha hb
    obtain ⟨ra, _, rfl⟩ := List.mem_map.mp ha
    obtain ⟨lb, _, rfl⟩ := List.mem_map.mp hb
    exact ⟨by simp [execRank], fun _ h0 => by simp [execRank] at h0,
      fun h1 _ _ => by simp [execRank] at h1⟩
  · -- updates pairwise
    refine List.pairwise_of_forall_mem_list ?_
    intro a ha b hb
    obtain ⟨pa, _, rfl⟩ := List.mem_map.mp ha
    obtain ⟨pb, _, rfl⟩ := List.mem_map.mp hb
    exact ⟨Nat.le_refl _, fun h0 _ => by simp [execRank] at h0,
      fun h1 _ => by simp [execRank] at h1⟩
  · -- deletions and creations before updates
    intro a ha b hb
    obtain ⟨pb, _, rfl⟩ := List.mem_map.mp hb
    rcases List.mem_append.mp ha with h | h
    · rw [← List.map_append] at h
      obtain ⟨ra, _, rfl⟩ := List.mem_map.mp h
      exact ⟨by simp [execRank], fun _ h0 => by simp [execRank] at h0,
        fun _ h1 => by simp [execRank] at h1⟩
    · rw [← List.map_append] at h
      obtain ⟨la, _, rfl⟩ := List.mem_map.mp h
      exact ⟨by simp [execRank], fun h0 _ => by simp [execRank] at h0,
        fun _ h1 => by simp [execRank] at h1⟩

end clbv1

namespace nlbv2

/-- Helper: the delete loop of the nlbv2 `applyListeners` only adds
delete actions to its accumulator. -/
theorem listenerDeleteLoop_acts (lbUserManaged : Bool) :
    ∀ (remotes locals : List ListenerAttribute) (acts : List ListenerAction),
      ∀ a ∈ (listenerDeleteLoop lbUserManaged remotes (locals, acts)).2,
        a ∈ acts ∨ a.action = ListenerActionKind.delete := by
  intro remotes
  induction remotes with
  | nil => intro locals acts a ha; exact Or.inl ha
  | cons r rest ih =>
    intro locals acts a ha
    rw [listenerDeleteLoop] at ha
    dsimp only [markMatched] at ha
    by_cases hf : locals.any (fun l => listenerMatch l r) = true
    · rw [if_pos hf] at ha
      exact ih _ _ a ha
    · rw [if_neg hf] at ha
      by_cases hskip : lbUserManaged ∧ (r.namedKey = none ∨ r.namedKey = some false)
      · rw [if_pos hskip] at ha
        exact ih _ _ a ha
      · rw [if_neg hskip] at ha
        rcases ih _ _ a ha with h | h
        · rcases List.mem_append.mp h with h' | h'
          · exact Or.inl h'
          · simp only [List.mem_singleton] at h'
            subst h'
            exact Or.inr rfl
        · exact Or.inr h

/-- Helper: the update/create loop of the nlbv2 `applyListeners` never
plans a delete action. -/
theorem listenerUpdateCreateLoop_no_delete (lbId : String)
    (remotes : List ListenerAttribute) :
    ∀ (locals : List ListenerAttribute),
      ∀ a ∈ listenerUpdateCreateLoop lbId remotes locals,
        a.action ≠ ListenerActionKind.delete := by
  intro locals
  induction locals with
  | nil => intro a ha; simp [listenerUpdateCreateLoop] at ha
  | cons l rest ih =>
    intro a ha
    rw [listenerUpdateCreateLoop] at ha
    rcases List.mem_append.mp ha with h | h
    · by_cases he : (remotes.filter (fun r => l.listenerId == r.listenerId)).isEmpty = true
      · rw [if_pos he] at h
        simp only [List.mem_singleton] at h
        subst h
        simp
      · rw [if_neg he] at h
        obtain ⟨r, _, rfl⟩ := List.mem_map.mp h
        simp
    · exact ih a h

end nlbv2

/-- Claim C2, counterexample: the nlbv2 `applyListeners` plans an
update action before a create action (a matched local listener comes
before an unmatched one), so the planned listener sequence does not
perform all creations before all updates; nothing reorders it before
the parallel executor. -/
theorem listener_order_claim_counterexample :
    (nlbv2.applyListeners false true "lb" []
        [nlbv2.ListenerAttribute.mk "TCP" 80 0 0 "" "sg-id" "sg" (some true),
         nlbv2.ListenerAttribute.mk "TCP" 81 0 0 "" "sg-id" "sg" (some true)]
        [nlbv2.ListenerAttribute.mk "TCP" 80 0 0 "lis-1" "" "" (some true)]).map
      (fun acts => acts.map (fun a => a.action))
      = Except.ok [nlbv2.ListenerActionKind.update, nlbv2.ListenerActionKind.create] ∧
    ¬ ([nlbv2.ListenerActionKind.update, nlbv2.ListenerActionKind.create].Pairwise
        (fun a b => ¬ (a = nlbv2.ListenerActionKind.update ∧
          b = nlbv2.ListenerActionKind.create))) := by
  constructor
  · rfl
  · intro h
    have := List.rel_of_pairwise_cons h (List.mem_singleton.mpr rfl)
    exact this ⟨rfl, rfl⟩

/-- Claim C2 (amended): in the clbv1 applier the executed listener
sequence performs all deletions before all creations before all
updates, with HTTPS listeners created before plain ones and deleted
after plain ones; in the nlbv2 applier the planned action list places
all deletions first, but creations and updates are interleaved in local
order (and handed to a parallel executor). -/
theorem listener_plan_order_spec :
    (∀ (lbUserManaged forceOverride : Bool) (localLs remoteLs : List clbv1.Listener),
      (clbv1.applyListeners lbUserManaged forceOverride localLs remoteLs).Pairwise
        clbv1.execOrdered) ∧
    (∀ (lbUserManaged forceOverride : Bool) (lbId : String)
        (localSGs : List nlbv2.ServerGroup)
        (localLs remoteLs : List nlbv2.ListenerAttribute)
        (acts : List nlbv2.ListenerAction),
      nlbv2.applyListeners lbUserManaged forceOverride lbId localSGs localLs remoteLs
        = Except.ok acts →
      acts.Pairwise (fun a b => b.action = nlbv2.ListenerActionKind.delete →
        a.action = nlbv2.ListenerActionKind.delete)) := by
  constructor
  · intro um fo ll rl
    by_cases h : um ∧ ¬ fo
    · simp only [clbv1.applyListeners, if_pos h]
      exact List.Pairwise.nil
    · simp only [clbv1.applyListeners, if_neg h]
      exact clbv1.execOrdered_pairwise_assembled _ _ _
  · intro um fo lbId sgs ll rl acts h
    unfold nlbv2.applyListeners at h
    by_cases hearly : um ∧ ¬ fo
    · rw [if_pos hearly] at h
      cases h
      exact List.Pairwise.nil
    · rw [if_neg hearly] at h
      match hres : nlbv2.resolveListeners sgs ll with
      | .error e => rw [hres] at h; cases h
      | .ok locals =>
        rw [hres] at h
        dsimp only at h
        rcases hdl : nlbv2.listenerDeleteLoop um rl (locals, []) with ⟨locals2, delActs⟩
        rw [hdl] at h
        dsimp only at h
        cases h
        refine List.pairwise_append.mpr ⟨?_, ?_, ?_⟩
        · refine List.pairwise_of_forall_mem_list ?_
          intro a ha b hb _
          have := nlbv2.listenerDeleteLoop_acts um rl locals [] a (by rw [hdl]; exact ha)
          simpa using this
        · refine List.pairwise_of_forall_mem_list ?_
          intro a ha b hb hbd
          exact absurd hbd (nlbv2.listenerUpdateCreateLoop_no_delete lbId rl locals2 b hb)
        · intro a ha b hb hbd
          exact absurd hbd (nlbv2.listenerUpdateCreateLoop_no_delete lbId rl locals2 b hb)

/-- Claim C2, witness: the amended nlbv2 deletions-first property at a
concrete plan (an update followed by a create, no deletions). -/
theorem listener_plan_order_spec_witness :
    List.Pairwise (fun a b => b.action = nlbv2.ListenerActionKind.delete →
        a.action = nlbv2.ListenerActionKind.delete)
      [nlbv2.ListenerAction.mk nlbv2.ListenerActionKind.update
        (some (nlbv2.ListenerAttribute.mk "TCP" 80 0 0 "lis-1" "sg-id" "sg" (some true)))
        (some (nlbv2.ListenerAttribute.mk "TCP" 80 0 0 "lis-1" "" "" (some true))) "",
       nlbv2.ListenerAction.mk nlbv2.ListenerActionKind.create
        (some (nlbv2.ListenerAttribute.mk "TCP" 81 0 0 "" "sg-id" "sg" (some true)))
        none "lb"] :=
  listener_plan_order_spec.2 false true "lb" []
    [nlbv2.ListenerAttribute.mk "TCP" 80 0 0 "" "sg-id" "sg" (some true),
     nlbv2.ListenerAttribute.mk "TCP" 81 0 0 "" "sg-id" "sg" (some true)]
    [nlbv2.ListenerAttribute.mk "TCP" 80 0 0 "lis-1" "" "" (some true)]
    _ rfl

/-- Claim C10, counterexample: with the stored hash unchanged and
dry-run off, the clbv1 `Apply` returns right after the remote build
when the remote load-balancer id is empty (and the service need not be
deleted) — server-group reconciliation and the cleanup pass do not
execute, so they are not unconditional. -/
theorem hash_gate_claim_counterexample :
    clbv1.applyTrace false false
      (ApplyOracle.mk true none true true true true true true false)
      = [ApplyPhase.buildLBRemote] ∧
    ApplyPhase.sgBuild ∉ [ApplyPhase.buildLBRemote] ∧
    ApplyPhase.cleanupPhase ∉ [ApplyPhase.buildLBRemote] := by
  decide

/-- Helper: with the hash gate closed (hash unchanged, no dry-run),
the nlbv2 `Apply` trace is the attribute build, the server-group
phases as far as they succeed, and cleanup — no attribute or listener
phase. -/
theorem nlbv2_applyTrace_no_gate (o : ApplyOracle) :
    nlbv2.applyTrace false false o =
      if ¬ o.buildLBOk then [ApplyPhase.buildLBRemote]
      else if ¬ o.sgBuildOk then [ApplyPhase.buildLBRemote, ApplyPhase.sgBuild]
      else if ¬ o.vgroupsOk then
        [ApplyPhase.buildLBRemote, ApplyPhase.sgBuild, ApplyPhase.applyVGroupsPhase]
      else [ApplyPhase.buildLBRemote, ApplyPhase.sgBuild, ApplyPhase.applyVGroupsPhase,
        ApplyPhase.cleanupPhase] := by
  unfold nlbv2.applyTrace
  by_cases h1 : o.buildLBOk
  · by_cases h2 : o.sgBuildOk
    · by_cases h3 : o.vgroupsOk <;> simp [h1, h2, h3]
    · simp [h1, h2]
  · simp [h1]

/-- Helper: with the hash gate closed, the clbv1 `Apply` trace stops at
the attribute build when the remote load-balancer id is empty, and
otherwise runs the server-group phases as far as they succeed, then
cleanup — no attribute or listener phase. -/
theorem clbv1_applyTrace_no_gate (o : ApplyOracle) :
    clbv1.applyTrace false false o =
      if ¬ o.buildLBOk then [ApplyPhase.buildLBRemote]
      else if o.lbIdEmpty then [ApplyPhase.buildLBRemote]
      else if ¬ o.sgBuildOk then [ApplyPhase.buildLBRemote, ApplyPhase.sgBuild]
      else if ¬ o.vgroupsOk then
        [ApplyPhase.buildLBRemote, ApplyPhase.sgBuild, ApplyPhase.applyVGroupsPhase]
      else [ApplyPhase.buildLBRemote, ApplyPhase.sgBuild, ApplyPhase.applyVGroupsPhase,
        ApplyPhase.cleanupPhase] := by
  unfold clbv1.applyTrace
  by_cases h1 : o.buildLBOk
  · by_cases h0 : o.lbIdEmpty
    · simp [h1, h0]
    · by_cases h2 : o.sgBuildOk
      · by_cases h3 : o.vgroupsOk <;> simp [h1, h0, h2, h3]
      · simp [h1, h0, h2]
  · simp [h1]

/-- Claim C10 (amended): with the stored hash unchanged and dry-run
off, both appliers skip the load-balancer attribute reconciliation and
the entire listener phase (no listener remote build, no listener
reconciliation); server-group reconciliation and the cleanup pass are
not gated on the hash — in the nlbv2 applier they run whenever the
preceding phases succeed, and in the clbv1 applier additionally only
when the remote load-balancer id is non-empty (else `Apply` returns
early). -/
theorem hash_gate_spec :
    (∀ o : ApplyOracle,
      (ApplyPhase.applyLBAttr ∉ nlbv2.applyTrace false false o ∧
       ApplyPhase.lisBuild ∉ nlbv2.applyTrace false false o ∧
       ApplyPhase.applyListenersPhase ∉ nlbv2.applyTrace false false o) ∧
      (o.buildLBOk = true → ApplyPhase.sgBuild ∈ nlbv2.applyTrace false false o) ∧
      (o.buildLBOk = true → o.sgBuildOk = true → o.vgroupsOk = true →
        ApplyPhase.cleanupPhase ∈ nlbv2.applyTrace false false o)) ∧
    (∀ o : ApplyOracle,
      (ApplyPhase.applyLBAttr ∉ clbv1.applyTrace false false o ∧
       ApplyPhase.lisBuild ∉ clbv1.applyTrace false false o ∧
       ApplyPhase.applyListenersPhase ∉ clbv1.applyTrace false false o) ∧
      (o.buildLBOk = true → o.lbIdEmpty = false →
        ApplyPhase.sgBuild ∈ clbv1.applyTrace false false o) ∧
      (o.buildLBOk = true → o.lbIdEmpty = false → o.sgBuildOk = true → o.vgroupsOk = true →
        ApplyPhase.cleanupPhase ∈ clbv1.applyTrace false false o)) := by
  constructor
  · intro o
    rw [nlbv2_applyTrace_no_gate o]
    refine ⟨⟨?_, ?_, ?_⟩, ?_, ?_⟩ <;>
      [skip; skip; skip;
       (intro h1; simp [h1]);
       (intro h1 h2 h3; simp [h1, h2, h3])] <;>
      split_ifs <;> decide
  · intro o
    rw [clbv1_applyTrace_no_gate o]
    refine ⟨⟨?_, ?_, ?_⟩, ?_, ?_⟩ <;>
      [skip; skip; skip;
       (intro h1 h0; simp [h1, h0]);
       (intro h1 h0 h2 h3; simp [h1, h0, h2, h3])] <;>
      split_ifs <;> decide

/-- Claim C10, witness: the amended theorem at an all-successful oracle
with a non-empty remote load-balancer id. -/
theorem hash_gate_spec_witness :
    (ApplyPhase.sgBuild ∈ nlbv2.applyTrace false false
        (ApplyOracle.mk true none true true true true true false false) ∧
     ApplyPhase.cleanupPhase ∈ nlbv2.applyTrace false false
        (ApplyOracle.mk true none true true true true true false false)) ∧
    (ApplyPhase.sgBuild ∈ clbv1.applyTrace false false
        (ApplyOracle.mk true none true true true true true false false) ∧
     ApplyPhase.cleanupPhase ∈ clbv1.applyTrace false false
        (ApplyOracle.mk true none true true true true true false false)) :=
  ⟨⟨(hash_gate_spec.1 (ApplyOracle.mk true none true true true true true false false)).2.1 rfl,
    (hash_gate_spec.1 (ApplyOracle.mk true none true true true true true false false)).2.2
      rfl rfl rfl⟩,
   ⟨(hash_gate_spec.2 (ApplyOracle.mk true none true true true true true false false)).2.1
      rfl rfl,
    (hash_gate_spec.2 (ApplyOracle.mk true none true true true true true false false)).2.2
      rfl rfl rfl rfl⟩⟩

namespace nlbv2

/-- Helper: writing a listener id back does not change the
(protocol, port) match. -/
theorem listenerMatch_set_id (l r : ListenerAttribute) (x : String) :
    listenerMatch { l with listenerId := x } r = listenerMatch l r := rfl

/-- Helper: server-group resolution does not change the
(protocol, port) match. -/
theorem listenerMatch_of_samePortsProto {l l' : ListenerAttribute}
    (h : samePortsProto l l') (r : ListenerAttribute) :
    listenerMatch l' r = listenerMatch l r := by
  obtain ⟨h1, h2, h3, h4⟩ := h
  simp [listenerMatch, isListenerPortMatch, h1, h2, h3, h4]

/-- Helper: the delete loop's id write-backs do not change the
(protocol, port) match. -/
theorem markAll_match (rs : List ListenerAttribute) (l r : ListenerAttribute) :
    listenerMatch (markAll rs l) r = listenerMatch l r := by
  induction rs generalizing l with
  | nil => rfl
  | cons r' rest ih =>
    show listenerMatch (markAll rest _) r = _
    dsimp only
    by_cases h : listenerMatch l r' = true
    · rw [if_pos h, ih]
      exact listenerMatch_set_id l r _
    · rw [if_neg h]
      exact ih l

/-- Helper: a local listener matching no remote listener is left
untouched by the delete loop's write-backs. -/
theorem markAll_no_match {rs : List ListenerAttribute} {l : ListenerAttribute}
    (h : ∀ r ∈ rs, listenerMatch l r = false) : markAll rs l = l := by
  induction rs with
  | nil => rfl
  | cons r rest ih =>
    show markAll rest _ = l
    dsimp only
    rw [if_neg (by simp [h r (List.mem_cons_self r rest)])]
    exact ih (fun r' hr' => h r' (List.mem_cons_of_mem r hr'))

/-- Helper: a local listener matching some remote listener ends up
carrying some remote listener's id after the delete loop. -/
theorem markAll_id_mem {rs : List ListenerAttribute} {l : ListenerAttribute}
    (h : ∃ r ∈ rs, listenerMatch l r = true) :
    ∃ r ∈ rs, (markAll rs l).listenerId = r.listenerId := by
  induction rs generalizing l with
  | nil => obtain ⟨r, hr, _⟩ := h; exact absurd hr (List.not_mem_nil r)
  | cons r rest ih =>
    by_cases hm : listenerMatch l r = true
    · have hstep : markAll (r :: rest) l = markAll rest { l with listenerId := r.listenerId } := by
        show markAll rest _ = _
        dsimp only
        rw [if_pos hm]
      by_cases hrest : ∃ r' ∈ rest, listenerMatch { l with listenerId := r.listenerId } r' = true
      · obtain ⟨r', hr', heq⟩ := ih hrest
        exact ⟨r', List.mem_cons_of_mem r hr', by rw [hstep]; exact heq⟩
      · push_neg at hrest
        have hnone : ∀ r' ∈ rest, listenerMatch { l with listenerId := r.listenerId } r' = false := by
          intro r' hr'
          have := hrest r' hr'
          simpa using this
        refine ⟨r, List.mem_cons_self r rest, ?_⟩
        rw [hstep, markAll_no_match hnone]
    · have hstep : markAll (r :: rest) l = markAll rest l := by
        show markAll rest _ = _
        dsimp only
        rw [if_neg hm]
      obtain ⟨r', hr', hmm⟩ := h
      rcases List.mem_cons.mp hr' with rfl | hr'
      · exact absurd hmm hm
      · obtain ⟨r'', hr'', heq⟩ := ih ⟨r', hr', hmm⟩
        exact ⟨r'', List.mem_cons_of_mem r hr'', by rw [hstep]; exact heq⟩

end nlbv2

namespace nlbv2

/-- Helper: under the per-listener server-group resolution hypothesis,
`resolveListeners` succeeds, changing only server-group ids. -/
theorem resolveListeners_ok {sgs : List ServerGroup} {ls : List ListenerAttribute}
    (h : ∀ l ∈ ls, l.serverGroupId ≠ "" ∨
      ∃ sg ∈ sgs, sg.serverGroupName = l.serverGroupName) :
    ∃ ls', resolveListeners sgs ls = Except.ok ls' ∧
      (∀ l' ∈ ls', ∃ l ∈ ls, samePortsProto l l') ∧
      (∀ l ∈ ls, ∃ l' ∈ ls', samePortsProto l l') := by
  induction ls with
  | nil => exact ⟨[], rfl, by simp, by simp⟩
  | cons l rest ih =>
    obtain ⟨rest', hok, h1, h2⟩ := ih (fun x hx => h x (List.mem_cons_of_mem l hx))
    have hhead : ∃ l₀,
        (if l.serverGroupId ≠ "" then Except.ok l else findServerGroup sgs l :
          Except String ListenerAttribute) = Except.ok l₀ ∧ samePortsProto l l₀ := by
      by_cases hid : l.serverGroupId ≠ ""
      · exact ⟨l, by rw [if_pos hid], ⟨rfl, rfl, rfl, rfl⟩⟩
      · rcases h l (List.mem_cons_self l rest) with h' | ⟨sg, hsg, hname⟩
        · exact absurd h' hid
        · match hfind : sgs.find? (fun sg => sg.serverGroupName == l.serverGroupName) with
          | none =>
            exfalso
            rw [List.find?_eq_none] at hfind
            exact hfind sg hsg (by simp [hname])
          | some sg' =>
            refine ⟨{ l with serverGroupId := sg'.serverGroupId }, ?_, ⟨rfl, rfl, rfl, rfl⟩⟩
            rw [if_neg hid]
            simp [findServerGroup, hfind]
    obtain ⟨l₀, hres, hpp⟩ := hhead
    refine ⟨l₀ :: rest', ?_, ?_, ?_⟩
    · show (match (if l.serverGroupId ≠ "" then Except.ok l else findServerGroup sgs l :
          Except String ListenerAttribute) with
        | .error e => Except.error ("find servergroup error: " ++ e)
        | .ok l => match resolveListeners sgs rest with
          | .error e => Except.error e
          | .ok rest => Except.ok (l :: rest)) = Except.ok (l₀ :: rest')
      rw [hres]
      dsimp only
      rw [hok]
    · intro l' hl'
      rcases List.mem_cons.mp hl' with rfl | hl'
      · exact ⟨l, List.mem_cons_self l rest, hpp⟩
      · obtain ⟨lx, hlx, hppx⟩ := h1 l' hl'
        exact ⟨lx, List.mem_cons_of_mem l hlx, hppx⟩
    · intro lx hlx
      rcases List.mem_cons.mp hlx with rfl | hlx
      · exact ⟨l₀, List.mem_cons_self l₀ rest', hpp⟩
      · obtain ⟨l', hl', hppx⟩ := h2 lx hlx
        exact ⟨l', List.mem_cons_of_mem l₀ hl', hppx⟩

/-- Helper: one delete-loop write-back step preserves the match test. -/
theorem listenerMatch_step (l r r' : ListenerAttribute) :
    listenerMatch
      (if listenerMatch l r then { l with listenerId := r.listenerId } else l) r'
      = listenerMatch l r' := by
  by_cases hc : listenerMatch l r = true
  · rw [if_pos hc]
    exact listenerMatch_set_id l r' _
  · rw [if_neg hc]

/-- Helper: when every remote listener is matched by a local one, the
delete loop plans no delete and only writes ids back. -/
theorem listenerDeleteLoop_all_matched (um : Bool) :
    ∀ (rs locals : List ListenerAttribute) (acts : List ListenerAction),
      (∀ r ∈ rs, ∃ l ∈ locals, listenerMatch l r = true) →
      listenerDeleteLoop um rs (locals, acts) = (locals.map (markAll rs), acts) := by
  intro rs
  induction rs with
  | nil =>
    intro locals acts h
    show (locals, acts) = (locals.map (markAll []), acts)
    have : locals.map (markAll []) = locals := by
      rw [show markAll ([] : List ListenerAttribute) = id from rfl, List.map_id]
    rw [this]
  | cons r rest ih =>
    intro locals acts h
    rw [listenerDeleteLoop]
    dsimp only [markMatched]
    have hfound : locals.any (fun l => listenerMatch l r) = true :=
      List.any_eq_true.mpr (h r (List.mem_cons_self r rest))
    rw [if_pos hfound]
    rw [ih _ _ (fun r' hr' => by
      obtain ⟨l, hl, hm⟩ := h r' (List.mem_cons_of_mem r hr')
      exact ⟨(if listenerMatch l r then { l with listenerId := r.listenerId } else l),
        List.mem_map_of_mem _ hl, by rw [listenerMatch_step]; exact hm⟩)]
    rw [List.map_map]
    rfl

/-- Helper: when every local listener carries some remote listener's
id, the update/create loop plans only updates. -/
theorem listenerUpdateCreateLoop_all_update (lbId : String)
    (remotes : List ListenerAttribute) :
    ∀ locals : List ListenerAttribute,
      (∀ l ∈ locals, ∃ r ∈ remotes, l.listenerId = r.listenerId) →
      ∀ a ∈ listenerUpdateCreateLoop lbId remotes locals,
        a.action = ListenerActionKind.update := by
  intro locals
  induction locals with
  | nil => intro _ a ha; simp [listenerUpdateCreateLoop] at ha
  | cons l rest ih =>
    intro h a ha
    rw [listenerUpdateCreateLoop] at ha
    rcases List.mem_append.mp ha with hh | ht
    · have hmemf : ∃ r, r ∈ remotes.filter (fun r => l.listenerId == r.listenerId) := by
        obtain ⟨r, hr, heq⟩ := h l (List.mem_cons_self l rest)
        exact ⟨r, List.mem_filter.mpr ⟨hr, by simp [heq]⟩⟩
      obtain ⟨r0, hr0⟩ := hmemf
      have hne : (remotes.filter (fun r => l.listenerId == r.listenerId)).isEmpty = false := by
        have : remotes.filter (fun r => l.listenerId == r.listenerId) ≠ [] :=
          List.ne_nil_of_mem hr0
        simpa [List.isEmpty_iff] using this
      rw [if_neg (by simp [hne])] at hh
      obtain ⟨r, _, rfl⟩ := List.mem_map.mp hh
      rfl
    · exact ih (fun x hx => h x (List.mem_cons_of_mem l hx)) a ht

end nlbv2

namespace nlbv2

/-- Helper: when every remaining desired server group has a
type-compatible remote match, the `applyVGroups` loop succeeds, never
grows the remote collection, and adds only update actions. -/
theorem applyVGroupsLoop_matched (vpcId : String) (remoteSGs : List ServerGroup) :
    ∀ (rest : List ServerGroup) (st : VGroupPlanState),
      st.remote = remoteSGs →
      (∀ sg ∈ rest, ∃ rv, findRemoteServerGroup sg remoteSGs = some rv ∧
        (sg.serverGroupType = "" ∨ sg.serverGroupType = rv.serverGroupType)) →
      ∃ st', applyVGroupsLoop vpcId rest st = Except.ok st' ∧ st'.remote = remoteSGs ∧
        ∀ a ∈ st'.actions, a ∈ st.actions ∨ a.action = ServerGroupActionKind.update := by
  intro rest
  induction rest with
  | nil =>
    intro st hrm _
    exact ⟨st, rfl, hrm, fun a ha => Or.inl ha⟩
  | cons sg rest ih =>
    intro st hrm h
    obtain ⟨rv, hscan, htype⟩ := h sg (List.mem_cons_self sg rest)
    rw [applyVGroupsLoop]
    dsimp only
    rw [hrm, hscan]
    dsimp only
    by_cases hdup : st.updated.contains
        (if sg.serverGroupId ≠ "" then "id-" ++ sg.serverGroupId
         else "name-" ++ sg.serverGroupName) = true
    · rw [if_pos hdup]
      exact ih _ (by rfl) (fun x hx => h x (List.mem_cons_of_mem sg hx))
    · rw [if_neg hdup]
      have hty : (if sg.serverGroupId = "" then { sg with serverGroupId := rv.serverGroupId }
          else sg).serverGroupType = sg.serverGroupType := by
        by_cases hid : sg.serverGroupId = ""
        · rw [if_pos hid]
        · rw [if_neg hid]
      have hcond : ¬((if sg.serverGroupId = "" then { sg with serverGroupId := rv.serverGroupId }
          else sg).serverGroupType ≠ "" ∧
          (if sg.serverGroupId = "" then { sg with serverGroupId := rv.serverGroupId }
          else sg).serverGroupType ≠ rv.serverGroupType) := by
        rw [hty]
        rcases htype with h' | h'
        · exact fun hc => hc.1 h'
        · exact fun hc => hc.2 h'
      rw [if_neg hcond]
      obtain ⟨st', hloop, hrm', hacts⟩ :=
        ih (VGroupPlanState.mk
            (st.actions ++ [⟨ServerGroupActionKind.update,
              (if sg.serverGroupId = "" then { sg with serverGroupId := rv.serverGroupId }
               else sg), rv⟩])
            remoteSGs
            (st.updated ++ [if sg.serverGroupId ≠ "" then "id-" ++ sg.serverGroupId
              else "name-" ++ sg.serverGroupName])
            (st.localAcc ++ [if sg.serverGroupId = "" then
              { sg with serverGroupId := rv.serverGroupId } else sg]))
          rfl (fun x hx => h x (List.mem_cons_of_mem sg hx))
      refine ⟨st', hloop, hrm', ?_⟩
      intro a ha
      rcases hacts a ha with hmem | hupd
      · rcases List.mem_append.mp hmem with h' | h'
        · exact Or.inl h'
        · simp only [List.mem_singleton] at h'
          subst h'
          exact Or.inr rfl
      · exact Or.inr hupd

end nlbv2

/-- Claim C1, counterexample: the second pass does not plan an empty
action set.  A first `applyVGroups` pass on a fresh desired group
plans its creation and appends it to the remote collection; re-running
`applyVGroups` on the produced local and remote state plans an update
action, so the second pass's action set is non-empty. -/
theorem idempotence_claim_counterexample :
    (nlbv2.applyVGroups "" [nlbv2.ServerGroup.mk "" "a" "" false "" [] (some true)] []).map
        (fun st => (st.localAcc, st.remote))
      = Except.ok ([nlbv2.ServerGroup.mk "" "a" "" false "" [] (some true)],
          [nlbv2.ServerGroup.mk "" "a" "" false "" [] (some true)]) ∧
    (nlbv2.applyVGroups "" [nlbv2.ServerGroup.mk "" "a" "" false "" [] (some true)]
        [nlbv2.ServerGroup.mk "" "a" "" false "" [] (some true)]).map
        (fun st => st.actions.map (fun a => a.action))
      = Except.ok [nlbv2.ServerGroupActionKind.update] ∧
    ([nlbv2.ServerGroupActionKind.update] : List nlbv2.ServerGroupActionKind) ≠ [] := by
  decide

/-- Claim C1 (amended): the second pass plans no creates (update
actions are still planned, so the set is not empty).  Whenever every
desired server group has a type-compatible remote match (by id when
set, else by name) — as after a successful first pass whose creates
were appended to the remote collection — `applyVGroups` succeeds
without growing the remote collection and plans only update actions;
and whenever every desired listener is matched by a remote listener by
(protocol, port) and vice versa, `applyListeners` succeeds and plans
only update actions — no creates and no deletes. -/
theorem reconcile_idempotence_spec :
    (∀ (vpcId : String) (localSGs remoteSGs : List nlbv2.ServerGroup),
      (∀ sg ∈ localSGs, ∃ rv, nlbv2.findRemoteServerGroup sg remoteSGs = some rv ∧
        (sg.serverGroupType = "" ∨ sg.serverGroupType = rv.serverGroupType)) →
      ∃ st, nlbv2.applyVGroups vpcId localSGs remoteSGs = Except.ok st ∧
        st.remote = remoteSGs ∧
        ∀ a ∈ st.actions, a.action = nlbv2.ServerGroupActionKind.update) ∧
    (∀ (lbUserManaged forceOverride : Bool) (lbId : String)
        (localSGs : List nlbv2.ServerGroup)
        (localLs remoteLs : List nlbv2.ListenerAttribute),
      (∀ l ∈ localLs, l.serverGroupId ≠ "" ∨
        ∃ sg ∈ localSGs, sg.serverGroupName = l.serverGroupName) →
      (∀ l ∈ localLs, ∃ r ∈ remoteLs, nlbv2.listenerMatch l r = true) →
      (∀ r ∈ remoteLs, ∃ l ∈ localLs, nlbv2.listenerMatch l r = true) →
      ∃ acts, nlbv2.applyListeners lbUserManaged forceOverride lbId localSGs localLs remoteLs
          = Except.ok acts ∧
        ∀ a ∈ acts, a.action = nlbv2.ListenerActionKind.update) := by
  constructor
  · intro vpcId localSGs remoteSGs h
    obtain ⟨st, hloop, hrm, hacts⟩ :=
      nlbv2.applyVGroupsLoop_matched vpcId remoteSGs localSGs ⟨[], remoteSGs, [], []⟩ rfl h
    refine ⟨st, hloop, hrm, ?_⟩
    intro a ha
    rcases hacts a ha with hmem | hupd
    · simp at hmem
    · exact hupd
  · intro um fo lbId sgs ll rl hresolve hfwd hbwd
    by_cases hearly : um ∧ ¬ fo
    · refine ⟨[], ?_, by simp⟩
      rw [nlbv2.applyListeners, if_pos hearly]
    · obtain ⟨ls', hok, h1, h2⟩ := nlbv2.resolveListeners_ok hresolve
      have hfwd' : ∀ l' ∈ ls', ∃ r ∈ rl, nlbv2.listenerMatch l' r = true := by
        intro l' hl'
        obtain ⟨l, hl, hpp⟩ := h1 l' hl'
        obtain ⟨r, hr, hm⟩ := hfwd l hl
        exact ⟨r, hr, by rw [nlbv2.listenerMatch_of_samePortsProto hpp]; exact hm⟩
      have hbwd' : ∀ r ∈ rl, ∃ l' ∈ ls', nlbv2.listenerMatch l' r = true := by
        intro r hr
        obtain ⟨l, hl, hm⟩ := hbwd r hr
        obtain ⟨l', hl', hpp⟩ := h2 l hl
        exact ⟨l', hl', by rw [nlbv2.listenerMatch_of_samePortsProto hpp]; exact hm⟩
      refine ⟨nlbv2.listenerUpdateCreateLoop lbId rl (ls'.map (nlbv2.markAll rl)), ?_, ?_⟩
      · rw [nlbv2.applyListeners, if_neg hearly, hok]
        dsimp only
        rw [nlbv2.listenerDeleteLoop_all_matched um rl ls' [] hbwd']
        rw [List.nil_append]
      · refine nlbv2.listenerUpdateCreateLoop_all_update lbId rl _ ?_
        intro m hm
        obtain ⟨l', hl', rfl⟩ := List.mem_map.mp hm
        exact nlbv2.markAll_id_mem (hfwd' l' hl')

/-- Claim C1, witness: the amended theorem at a one-group, one-listener
configuration whose desired state is fully matched remotely. -/
theorem reconcile_idempotence_spec_witness :
    (∃ st, nlbv2.applyVGroups ""
        [nlbv2.ServerGroup.mk "sg-1" "a" "tcp" false "" [] (some true)]
        [nlbv2.ServerGroup.mk "sg-1" "a" "tcp" false "" [] (some true)]
        = Except.ok st ∧
      st.remote = [nlbv2.ServerGroup.mk "sg-1" "a" "tcp" false "" [] (some true)] ∧
      ∀ a ∈ st.actions, a.action = nlbv2.ServerGroupActionKind.update) ∧
    (∃ acts, nlbv2.applyListeners false true "lb" []
        [nlbv2.ListenerAttribute.mk "TCP" 80 0 0 "" "sg-id" "sg" (some true)]
        [nlbv2.ListenerAttribute.mk "TCP" 80 0 0 "lis-1" "" "" (some true)]
        = Except.ok acts ∧
      ∀ a ∈ acts, a.action = nlbv2.ListenerActionKind.update) :=
  ⟨reconcile_idempotence_spec.1 ""
      [nlbv2.ServerGroup.mk "sg-1" "a" "tcp" false "" [] (some true)]
      [nlbv2.ServerGroup.mk "sg-1" "a" "tcp" false "" [] (some true)]
      (fun sg hsg => by
        rw [List.mem_singleton] at hsg
        subst hsg
        exact ⟨nlbv2.ServerGroup.mk "sg-1" "a" "tcp" false "" [] (some true),
          by decide, by decide⟩),
   reconcile_idempotence_spec.2 false true "lb" []
      [nlbv2.ListenerAttribute.mk "TCP" 80 0 0 "" "sg-id" "sg" (some true)]
      [nlbv2.ListenerAttribute.mk "TCP" 80 0 0 "lis-1" "" "" (some true)]
      (fun l hl => by
        rw [List.mem_singleton] at hl
        subst hl
        exact Or.inl (by decide))
      (fun l hl => by
        rw [List.mem_singleton] at hl
        subst hl
        exact ⟨nlbv2.ListenerAttribute.mk "TCP" 80 0 0 "lis-1" "" "" (some true),
          List.mem_singleton.mpr rfl, by decide⟩)
      (fun r hr => by
        rw [List.mem_singleton] at hr
        subst hr
        exact ⟨nlbv2.ListenerAttribute.mk "TCP" 80 0 0 "" "sg-id" "sg" (some true),
          List.mem_singleton.mpr rfl, by decide⟩)⟩
